import Mathlib

/-!
Verification of the volunteer shift-scheduling frontend (CKC Volunteers).

This file shallowly embeds the core scheduling logic of the repository:
the recurrence helpers, the week-view instance materializer, the
assignment upsert handlers, the recurring-assignment save/delete
handlers and the capacity-slot display ranking, all translated from
`src/ProfileOnboarding.tsx` (the `AuthedApp.tsx` copies of the handlers
are line-for-line identical in the modelled parts).

Modelling conventions:
- JavaScript `Date` values are modelled by a `CalDate` record of
  year/month/day.  Day-of-week and day arithmetic are computed through a
  days-since-1970 formula, which agrees with the JS runtime for
  normalized Gregorian dates from 1970 on (all dates exercised by the
  claims are in 2025-2027).
- ISO timestamp serialization (`toISOString`) is modelled zone-lessly:
  the civil date/time is rendered directly with a `Z` suffix.  No claim
  in scope depends on a UTC offset.
- The remote store (supabase/PostgREST) is modelled as explicit lists of
  rows.  `upsert` with `onConflict: "shift_instance_id,volunteer_id"` is
  modelled as insert-or-overwrite on that key; `update ... eq(id)` as a
  map; `delete` as a filter.  A PostgREST `.or("c1,c2,...")` filter is a
  disjunction of its comma-separated conditions, with conditions on a
  NULL column evaluating to false.
- Strings use Lean `String`; PostgREST string comparison and JS
  `localeCompare` on ISO date/timestamp strings are modelled by the
  codepoint order on `String`.
-/

/-- A civil calendar date (year, month 1-12, day 1-31), the model of a
JS `Date` truncated to day precision.  The arithmetic below assumes the
record is normalized and the year is at least 1970. -/
structure CalDate where
  year : Nat
  month : Nat
  day : Nat
deriving DecidableEq, Repr

/-- Gregorian leap-year test. -/
def isLeapYear (y : Nat) : Bool :=
  y % 4 == 0 && (y % 100 != 0 || y % 400 == 0)

/-- Number of days in a month of a given year. -/
def daysInMonth (y m : Nat) : Nat :=
  if m == 1 then 31
  else if m == 2 then (if isLeapYear y then 29 else 28)
  else if m == 3 then 31
  else if m == 4 then 30
  else if m == 5 then 31
  else if m == 6 then 30
  else if m == 7 then 31
  else if m == 8 then 31
  else if m == 9 then 30
  else if m == 10 then 31
  else if m == 11 then 30
  else 31

/-- Days in the months strictly before month `m` of year `y`. -/
def monthOffset (y m : Nat) : Nat :=
  let base :=
    if m == 1 then 0
    else if m == 2 then 31
    else if m == 3 then 59
    else if m == 4 then 90
    else if m == 5 then 120
    else if m == 6 then 151
    else if m == 7 then 181
    else if m == 8 then 212
    else if m == 9 then 243
    else if m == 10 then 273
    else if m == 11 then 304
    else 334
  if 3 <= m && isLeapYear y then base + 1 else base

/-- Leap years in the interval `[1, y)`. -/
def leapYearsBefore (y : Nat) : Nat :=
  (y - 1) / 4 - (y - 1) / 100 + (y - 1) / 400

/-- Days elapsed since 1970-01-01 (which is day 0). -/
def daysSinceEpoch (d : CalDate) : Nat :=
  365 * (d.year - 1970) + (leapYearsBefore d.year - leapYearsBefore 1970)
    + monthOffset d.year d.month + (d.day - 1)

/-- The JS `Date.prototype.getDay` value: 0 = Sunday .. 6 = Saturday.
1970-01-01 was a Thursday (4). -/
def getDay (d : CalDate) : Nat :=
  (daysSinceEpoch d + 4) % 7

/-- The day after `d`, rolling months and years (JS `setDate` overflow
normalization for a one-day step). -/
def nextDay (d : CalDate) : CalDate :=
  if d.day < daysInMonth d.year d.month then ⟨d.year, d.month, d.day + 1⟩
  else if d.month < 12 then ⟨d.year, d.month + 1, 1⟩
  else ⟨d.year + 1, 1, 1⟩

/-- `addDays(date, n)` from the source, for the non-negative steps the
modelled code paths take. -/
def addDays (d : CalDate) (n : Nat) : CalDate :=
  match n with
  | 0 => d
  | Nat.succ k => addDays (nextDay d) k

/-- Normalize a day overflow after month arithmetic (JS `setMonth`
normalization; at most one month of overflow can happen since day is at
most 31). -/
def normalizeDayOverflow (y m day : Nat) : CalDate :=
  if day <= daysInMonth y m then ⟨y, m, day⟩
  else if m < 12 then ⟨y, m + 1, day - daysInMonth y m⟩
  else ⟨y + 1, 1, day - daysInMonth y m⟩

/-- `addMonths(date, n)` from the source (JS `setMonth(getMonth()+n)`). -/
def addMonths (d : CalDate) (n : Nat) : CalDate :=
  let total := (d.month - 1) + n
  normalizeDayOverflow (d.year + total / 12) (total % 12 + 1) d.day

/-- Left-pad the decimal rendering of `n` to two digits, the model of
`` `${n}`.padStart(2, "0") ``. -/
def pad2 (n : Nat) : String :=
  if n < 10 then "0" ++ toString n else toString n

/-- `getDateKey(date)` from the source: the `YYYY-MM-DD` key of a date. -/
def getDateKey (d : CalDate) : String :=
  toString d.year ++ "-" ++ pad2 d.month ++ "-" ++ pad2 d.day

/-- Split a character list on a separator character. -/
def splitCharsOn (sep : Char) : List Char → List Char → List (List Char)
  | [], acc => [acc.reverse]
  | c :: rest, acc =>
    if c == sep then acc.reverse :: splitCharsOn sep rest []
    else splitCharsOn sep rest (c :: acc)

/-- JS `String.prototype.split(sep)` for a one-character separator. -/
def jsSplit (s : String) (sep : Char) : List String :=
  (splitCharsOn sep s.data []).map (fun cs => String.mk cs)

/-- JS whitespace test for `trim` (ASCII fragment). -/
def isJsSpace (c : Char) : Bool :=
  c == ' ' || c == '\t' || c == '\n' || c == '\r'

/-- JS `String.prototype.trim`. -/
def jsTrim (s : String) : String :=
  String.mk (((s.data.dropWhile isJsSpace).reverse.dropWhile isJsSpace).reverse)

/-- JS `String.prototype.toUpperCase` (ASCII fragment). -/
def jsToUpper (s : String) : String :=
  String.mk (s.data.map Char.toUpper)

/-- Does the character list start with the given pattern? -/
def charsStartWith : List Char → List Char → Bool
  | [], _ => true
  | _ :: _, [] => false
  | p :: ps, c :: cs => p == c && charsStartWith ps cs

/-- JS `String.prototype.startsWith`. -/
def jsStartsWith (s pat : String) : Bool :=
  charsStartWith pat.data s.data

/-- Lexicographic codepoint comparison of character lists (at-most). -/
def charsLe : List Char → List Char → Bool
  | [], _ => true
  | _ :: _, [] => false
  | a :: as, b :: bs =>
    if a < b then true
    else if b < a then false
    else charsLe as bs

/-- Strict lexicographic codepoint comparison of character lists. -/
def charsLt : List Char → List Char → Bool
  | [], [] => false
  | [], _ :: _ => true
  | _ :: _, [] => false
  | a :: as, b :: bs =>
    if a < b then true
    else if b < a then false
    else charsLt as bs

/-- The string order used by the model for PostgREST comparisons and JS
`localeCompare` on ISO date/timestamp strings: codepoint order. -/
def jsStrLe (s t : String) : Bool :=
  charsLe s.data t.data

/-- Strict form of `jsStrLe`. -/
def jsStrLt (s t : String) : Bool :=
  charsLt s.data t.data

/-- Parse a nonempty all-digit string as a number; the model of JS
`Number(s)` restricted to the digit strings occurring in date keys
(`Number` of a non-numeric string is NaN and of `""` is 0; both are
rejected by the falsiness guards at every call site, exactly as `none`
is rejected here). -/
def jsDigits? (s : String) : Option Nat :=
  if s.data ≠ [] && s.data.all Char.isDigit then
    some (s.data.foldl (fun acc c => acc * 10 + (c.toNat - 48)) 0)
  else none

/-- `parseDateOnly(value)` from the source: split a `YYYY-MM-DD` string
on `-`, reject when any component is missing, non-numeric or zero.  (JS
would normalize out-of-range components; every call site in scope passes
keys produced by `getDateKey`, which are in range.) -/
def parseDateOnly (value : String) : Option CalDate :=
  match jsSplit value '-' with
  | y :: m :: d :: _ =>
    match jsDigits? y, jsDigits? m, jsDigits? d with
    | some yn, some mn, some dn =>
      if yn ≠ 0 && mn ≠ 0 && dn ≠ 0 then some ⟨yn, mn, dn⟩ else none
    | _, _, _ => none
  | _ => none

/-- The weekday-code table of `getDayCode`: index 0 = Sunday. -/
def dayCodeTable : List String :=
  ["SU", "MO", "TU", "WE", "TH", "FR", "SA"]

/-- `getDayCode(value)` from the source: `null`/empty gives `null`;
a string containing `T` is treated as a timestamp (modelled by its civil
date part, per the zone-less timestamp convention); otherwise the string
is parsed as a date-only key, and the two-letter weekday code of the
parsed date is returned. -/
def getDayCode (value : Option String) : Option String :=
  match value with
  | none => none
  | some s =>
    if s = "" then none
    else
      let base := if s.data.contains 'T' then String.mk (s.data.takeWhile (fun c => c ≠ 'T')) else s
      match parseDateOnly base with
      | none => none
      | some d => dayCodeTable[getDay d]?

/-- `parseRRuleDays(rrule)` from the source: extract the BYDAY codes of
an RRULE string, upper-cased and trimmed, or `[]` when absent. -/
def parseRRuleDays (rrule : Option String) : List String :=
  match rrule with
  | none => []
  | some r =>
    if r = "" then []
    else
      match (jsSplit r ';').find? (fun part => jsStartsWith (jsToUpper (jsTrim part)) "BYDAY=") with
      | none => []
      | some part =>
        match jsSplit part '=' with
        | _ :: byday :: _ =>
          if byday = "" then []
          else ((jsSplit byday ',').map (fun p => jsToUpper (jsTrim p))).filter (fun p => p ≠ "")
        | _ => []

/-- `parseRRuleFreq(rrule)` from the source. -/
def parseRRuleFreq (rrule : Option String) : Option String :=
  match rrule with
  | none => none
  | some r =>
    if r = "" then none
    else
      match (jsSplit r ';').find? (fun part => jsStartsWith (jsToUpper (jsTrim part)) "FREQ=") with
      | none => none
      | some part =>
        match jsSplit part '=' with
        | _ :: freq :: _ => some (jsToUpper (jsTrim freq))
        | _ => none

/-- The typed shape of a shift template row consumed by the week view
(`ShiftTemplate` in the source).  The optional `time_start`, `starts_at`,
`time_end` and `ends_at` fields model the duck-typed fallback columns the
time resolvers probe. -/
structure ShiftTemplate where
  id : String
  title : String
  start_time : String
  end_time : String
  rrule : Option String
  is_active : Bool
  time_start : Option String := none
  starts_at : Option String := none
  time_end : Option String := none
  ends_at : Option String := none
deriving DecidableEq, Repr

/-- `shouldIncludeDateForTemplate(date, template)` from the source: no
rrule means include; an explicit BYDAY set means include exactly when
the date's weekday code is in the set; otherwise every recognized (and
unrecognized) FREQ is included. -/
def shouldIncludeDateForTemplate (date : CalDate) (template : ShiftTemplate) : Bool :=
  match template.rrule with
  | none => true
  | some _ =>
    let byDay := parseRRuleDays template.rrule
    match getDayCode (some (getDateKey date)) with
    | none => false
    | some dayCode =>
      if byDay.length > 0 then byDay.contains dayCode
      else
        let freq := parseRRuleFreq template.rrule
        if freq = some "DAILY" || freq = some "WEEKLY" || freq = some "MONTHLY" then true
        else true

example : getDay ⟨2026, 1, 5⟩ = 1 := by decide
example : getDay ⟨2025, 12, 29⟩ = 1 := by decide
example : getDay ⟨2026, 1, 6⟩ = 2 := by decide
example : getDateKey ⟨2026, 1, 5⟩ = "2026-01-05" := by decide
example : parseDateOnly "2026-01-05" = some ⟨2026, 1, 5⟩ := by decide
example : getDayCode (some "2026-01-05") = some "MO" := by decide
example : parseRRuleDays (some "FREQ=WEEKLY;BYDAY=MO,WE") = ["MO", "WE"] := by decide
example : addMonths ⟨2026, 1, 5⟩ 12 = ⟨2027, 1, 5⟩ := by decide
example : getDateKey (addMonths ⟨2026, 1, 5⟩ 12) = "2027-01-05" := by decide

/-- A `shift_assignments` row as stored.  `created_at` and `notes` are
set on insert and preserved by the conflict update (the upsert payload
does not mention them). -/
structure AssignmentRow where
  id : String
  shift_instance_id : Nat
  volunteer_id : String
  status : String
  assignment_role : String
  dropped_at : Option String
  dropped_reason : Option String
  created_at : String
  notes : Option String
deriving DecidableEq, Repr

/-- The columns of every modelled upsert payload into
`shift_assignments`. -/
structure AssignmentPayload where
  shift_instance_id : Nat
  volunteer_id : String
  status : String
  assignment_role : String
  dropped_at : Option String
  dropped_reason : Option String
deriving DecidableEq, Repr

/-- Does a row sit on the conflict key `(shift_instance_id, volunteer_id)`
of a payload? -/
def onConflictKey (iid : Nat) (vid : String) (r : AssignmentRow) : Bool :=
  r.shift_instance_id == iid && r.volunteer_id == vid

/-- The conflict update of an upsert: overwrite exactly the payload
columns of an existing row, keeping `id`, `created_at` and `notes`. -/
def applyPayloadFields (p : AssignmentPayload) (r : AssignmentRow) : AssignmentRow :=
  { r with status := p.status, assignment_role := p.assignment_role,
           dropped_at := p.dropped_at, dropped_reason := p.dropped_reason }

/-- `supabase.from("shift_assignments").upsert(payload, { onConflict:
"shift_instance_id,volunteer_id" })`: insert, or on a key conflict
overwrite exactly the payload columns of the existing row. -/
def upsertAssignment (store : List AssignmentRow) (p : AssignmentPayload)
    (now freshId : String) : List AssignmentRow :=
  if store.any (onConflictKey p.shift_instance_id p.volunteer_id) then
    store.map (fun r =>
      if onConflictKey p.shift_instance_id p.volunteer_id r then applyPayloadFields p r
      else r)
  else
    store ++ [{ id := freshId, shift_instance_id := p.shift_instance_id,
                volunteer_id := p.volunteer_id, status := p.status,
                assignment_role := p.assignment_role, dropped_at := p.dropped_at,
                dropped_reason := p.dropped_reason, created_at := now, notes := none }]

/-- Number of rows of a store on a given `(instance, volunteer)` key. -/
def countFor (store : List AssignmentRow) (iid : Nat) (vid : String) : Nat :=
  (store.filter (onConflictKey iid vid)).length

/-- The fetched-assignment shape the UI holds in `weekAssignments`
(`ShiftAssignmentDetail` in the source), flattened to the fields the
modelled code paths read. -/
structure ShiftAssignmentDetail where
  id : String
  created_at : Option String
  status : Option String
  assignment_role : String
  volunteer_id : Option String
  volunteer_role : Option String
deriving DecidableEq, Repr

/-- A `profiles`/volunteer row as read by the admin assign flow. -/
structure VolunteerRow where
  id : String
  role : String
deriving DecidableEq, Repr

/-- A push-notification request (`sendVolunteerPush` call) recorded as
an effect. -/
structure PushMsg where
  userId : String
  title : String
  body : String
deriving DecidableEq, Repr

/-- `handleConfirmTakeShift` from the source: the volunteer self-request
(`mode = "request"`) or lead/admin self-join (`mode = "join"`).  Blocked
when no instance id is active or when the client's `weekAssignments`
view already shows a non-dropped assignment of the caller; otherwise a
single upsert keyed on `(shift_instance_id, volunteer_id)` writing the
new status, the profile-derived role and null drop metadata.  Returns
the new store and the error/info message, if any. -/
def handleConfirmTakeShift (store : List AssignmentRow)
    (view : List ShiftAssignmentDetail) (uid : String)
    (activeShiftInstanceId : Option Nat) (takeShiftMode : String)
    (profileRole : Option String) (now freshId : String) :
    List AssignmentRow × Option String :=
  match activeShiftInstanceId with
  | none => (store, some "Shift instance not found.")
  | some iid =>
    if view.any (fun a => a.volunteer_id == some uid && a.status != some "dropped") then
      (store, some "You are already on this shift!")
    else
      let assignmentRole := if profileRole == some "Lead" then "lead" else "regular"
      let nextStatus := if takeShiftMode == "join" then "active" else "pending"
      (upsertAssignment store
        { shift_instance_id := iid, volunteer_id := uid, status := nextStatus,
          assignment_role := assignmentRole, dropped_at := none, dropped_reason := none }
        now freshId, none)

/-- `handleAssignVolunteer` from the source: the admin assigning a
volunteer to a slot.  One upsert keyed on `(shift_instance_id,
volunteer_id)` with `status = "active"`, the role derived from the
target volunteer's profile role, and null drop metadata; afterwards a
push notification to the assignee. -/
def handleAssignVolunteer (store : List AssignmentRow)
    (assignShiftInstanceId : Option Nat) (volunteers : List VolunteerRow)
    (volunteerId : String) (now freshId : String) :
    List AssignmentRow × Option String × List PushMsg :=
  match assignShiftInstanceId with
  | none => (store, some "Shift instance not found.", [])
  | some iid =>
    match volunteers.find? (fun v => v.id == volunteerId) with
    | none => (store, some "Volunteer not found.", [])
    | some volunteer =>
      let assignmentRole := if volunteer.role == "Lead" then "lead" else "regular"
      let store1 := upsertAssignment store
        { shift_instance_id := iid, volunteer_id := volunteerId, status := "active",
          assignment_role := assignmentRole, dropped_at := none, dropped_reason := none }
        now freshId
      (store1, none, [{ userId := volunteerId, title := "Shift added", body := "added you" }])

/-- `handleConfirmDeny` from the source: admin denial of a pending
request.  An empty or whitespace-only reason is rejected before any
write; otherwise the target row is updated by id to `status = "dropped"`
with `dropped_at = now` and `dropped_reason` the trimmed reason.  The
deny path invokes no push function: the returned effect list is the
complete set of `sendVolunteerPush`/`send-admin-push` calls made. -/
def handleConfirmDeny (store : List AssignmentRow)
    (denyTargetId : Option String) (denyReason : String) (now : String) :
    List AssignmentRow × Option String × List PushMsg :=
  match denyTargetId with
  | none => (store, none, [])
  | some targetId =>
    if jsTrim denyReason = "" then
      (store, some "Please add a denial reason.", [])
    else
      (store.map (fun r =>
        if r.id == targetId then
          { r with status := "dropped", dropped_at := some now,
                   dropped_reason := some (jsTrim denyReason) }
        else r), none, [])

/-- A `shift_instances` row as fetched by the recurring-assignment
handlers (`id, shift_date, starts_at` plus the template key it was
filtered on). -/
structure InstanceRow where
  id : Nat
  template_id : String
  shift_date : Option String
  starts_at : Option String
deriving DecidableEq, Repr

/-- A `recurring_assignments` row. -/
structure RecurringRow where
  id : String
  volunteer_id : String
  template_id : String
  starts_on : String
  ends_on : Option String
  byday : List String
deriving DecidableEq, Repr

/-- PostgREST condition `col.gte.bound` on a nullable column: false on
NULL. -/
def pgGe (col : Option String) (bound : String) : Bool :=
  match col with
  | some v => jsStrLe bound v
  | none => false

/-- PostgREST condition `col.lte.bound` on a nullable column. -/
def pgLe (col : Option String) (bound : String) : Bool :=
  match col with
  | some v => jsStrLe v bound
  | none => false

/-- PostgREST condition `col.lt.bound` on a nullable column. -/
def pgLt (col : Option String) (bound : String) : Bool :=
  match col with
  | some v => jsStrLt v bound
  | none => false

/-- The `.or("starts_at.gte.S,starts_at.lt.E,shift_date.gte.A,shift_date.lte.B")`
filter both recurring handlers put on the `shift_instances` query: a
disjunction of the four comma-separated conditions (PostgREST `or`
semantics), not a pair of ranges. -/
def recurringRangeFilter (startIso endExclusive rangeStart rangeEnd : String)
    (r : InstanceRow) : Bool :=
  pgGe r.starts_at startIso || pgLt r.starts_at endExclusive
    || pgGe r.shift_date rangeStart || pgLe r.shift_date rangeEnd

/-- Zone-less model of `new Date(key + "T00:00:00").toISOString()`. -/
def isoMidnight (key : String) : String :=
  key ++ "T00:00:00.000Z"

/-- The upper bound string of the recurring projection range:
`ends_on || getDateKey(addMonths(today, 12))` — anchored at `today` when
`ends_on` is absent or empty. -/
def recurringRangeEnd (endsOn : Option String) (today : CalDate) : String :=
  match endsOn with
  | some e => if e = "" then getDateKey (addMonths today 12) else e
  | none => getDateKey (addMonths today 12)

/-- The instance rows selected by both recurring handlers for a template
and range: `eq(template_id)` conjoined with the four-way disjunction. -/
def recurringSelectInstances (instances : List InstanceRow) (templateId : String)
    (rangeStart rangeEnd : String) (endDate : CalDate) : List InstanceRow :=
  instances.filter (fun r =>
    r.template_id == templateId
      && recurringRangeFilter (isoMidnight rangeStart)
           (isoMidnight (getDateKey (addDays endDate 1))) rangeStart rangeEnd r)

/-- The weekday filter of `handleRecurringSave`: keep an instance when
`getDayCode(instance.shift_date ?? instance.starts_at)` is a member of
the chosen weekday-code set. -/
def recurringDayMatch (days : List String) (inst : InstanceRow) : Bool :=
  match getDayCode (inst.shift_date.or inst.starts_at) with
  | some dayCode => days.contains dayCode
  | none => false

/-- The form state behind the recurring-assignment dialog. -/
structure RecurringForm where
  templateId : String
  startsOn : String
  endsOn : String
deriving DecidableEq, Repr

/-- The two stores touched by the recurring handlers. -/
structure RecurringState where
  patterns : List RecurringRow
  assignments : List AssignmentRow
deriving DecidableEq, Repr

/-- One batched upsert of many payload rows (`upsert(payload, ...)` on a
list), modelled row by row on the conflict key. -/
def bulkUpsert (store : List AssignmentRow) (payloads : List AssignmentPayload)
    (now : String) : List AssignmentRow :=
  payloads.foldl (fun s p => upsertAssignment s p now ("ra-" ++ toString p.shift_instance_id)) store

/-- `handleRecurringSave` from the source: validate the form, insert the
pattern row, select the template's instances through
`recurringSelectInstances` with `rangeStart = starts_on` and `rangeEnd =
ends_on || getDateKey(addMonths(today, 12))`, keep those whose
`getDayCode(shift_date ?? starts_at)` is in the chosen weekday set, and
bulk-upsert one active assignment per kept instance with null drop
metadata.  `today` models the `new Date()`/`today` state the handler
reads. -/
def handleRecurringSave (selectedVolunteer : Option VolunteerRow)
    (recurringForm : RecurringForm) (recurringDays : List String)
    (today : CalDate) (instances : List InstanceRow) (st : RecurringState)
    (newPatternId now : String) : RecurringState × Option String :=
  match selectedVolunteer with
  | none => (st, none)
  | some volunteer =>
    if recurringForm.templateId = "" then (st, some "Select a shift template.")
    else if recurringForm.startsOn = "" then (st, some "Start date is required.")
    else if recurringDays = [] then (st, some "Select at least one weekday.")
    else
      let pattern : RecurringRow :=
        { id := newPatternId, volunteer_id := volunteer.id,
          template_id := recurringForm.templateId, starts_on := recurringForm.startsOn,
          ends_on := if recurringForm.endsOn = "" then none else some recurringForm.endsOn,
          byday := recurringDays }
      let st1 : RecurringState := { st with patterns := st.patterns ++ [pattern] }
      let rangeStart := recurringForm.startsOn
      let rangeEnd := recurringRangeEnd (some recurringForm.endsOn) today
      let endDate := (parseDateOnly rangeEnd).getD today
      let selected := recurringSelectInstances instances recurringForm.templateId
        rangeStart rangeEnd endDate
      let filteredInstances :=
        if recurringDays.length > 0 then selected.filter (recurringDayMatch recurringDays)
        else selected
      if filteredInstances.length > 0 then
        let assignmentRole := if volunteer.role == "Lead" then "lead" else "regular"
        let payloads := filteredInstances.map (fun inst =>
          { shift_instance_id := inst.id, volunteer_id := volunteer.id,
            status := "active", assignment_role := assignmentRole,
            dropped_at := none, dropped_reason := none : AssignmentPayload })
        ({ st1 with assignments := bulkUpsert st1.assignments payloads now }, none)
      else
        (st1, some "Recurring pattern saved. No matching shift dates were found yet.")

/-- `handleRecurringDelete` from the source: find the pattern, select
the template's instances through the same (byday-free) range query with
`rangeStart = starts_on` and `rangeEnd = ends_on || getDateKey(
addMonths(today, 12))`, delete every assignment of the volunteer whose
`shift_instance_id` is among the selected ids, then delete the pattern
row. -/
def handleRecurringDelete (selectedVolunteer : Option VolunteerRow)
    (volunteerRecurring : List RecurringRow) (recurringId : String)
    (today : CalDate) (instances : List InstanceRow) (st : RecurringState) :
    RecurringState × Option String :=
  match selectedVolunteer with
  | none => (st, none)
  | some volunteer =>
    match volunteerRecurring.find? (fun item => item.id == recurringId) with
    | none => (st, some "Recurring shift not found.")
    | some target =>
      let rangeStart := target.starts_on
      let rangeEnd := recurringRangeEnd target.ends_on today
      let endDate := (parseDateOnly rangeEnd).getD today
      let instanceIds := (recurringSelectInstances instances target.template_id
        rangeStart rangeEnd endDate).map (fun item => item.id)
      let assignments1 := st.assignments.filter (fun r =>
        !(r.volunteer_id == volunteer.id && instanceIds.contains r.shift_instance_id))
      let patterns1 := st.patterns.filter (fun p => !(p.id == recurringId))
      ({ patterns := patterns1, assignments := assignments1 }, none)

/-- Try the `/(\d{1,2}):(\d{2})/` pattern anchored at the head of the
character list: greedily two digits, else one, then `:`, then exactly
two digits. -/
def matchHmAt (cs : List Char) : Option (List Char × List Char) :=
  let two :=
    match cs with
    | c0 :: c1 :: c2 :: c3 :: c4 :: _ =>
      if c0.isDigit && c1.isDigit && c2 == ':' && c3.isDigit && c4.isDigit then
        some ([c0, c1], [c3, c4])
      else none
    | _ => none
  match two with
  | some r => some r
  | none =>
    match cs with
    | c0 :: c1 :: c2 :: c3 :: _ =>
      if c0.isDigit && c1 == ':' && c2.isDigit && c3.isDigit then
        some ([c0], [c2, c3])
      else none
    | _ => none

/-- Scan for the earliest match of the pattern, as `String.prototype.match`
does. -/
def scanHm : List Char → Option (List Char × List Char)
  | [] => none
  | c :: rest =>
    match matchHmAt (c :: rest) with
    | some r => some r
    | none => scanHm rest

/-- `value.match(/(\d{1,2}):(\d{2})/)` reduced to its two capture
groups. -/
def matchTime (s : String) : Option (String × String) :=
  (scanHm s.data).map (fun p => (String.mk p.1, String.mk p.2))

/-- `h.padStart(2, "0")` for the one-or-two digit hour capture. -/
def padTo2 (h : String) : String :=
  if h.data.length < 2 then "0" ++ h else h

/-- The candidate loop shared by `resolveTemplateStartTime` and
`resolveTemplateEndTime`: first candidate that is truthy and contains an
`hh:mm` fragment wins, rendered zero-padded; otherwise the default. -/
def resolveFromCandidates (candidates : List (Option String)) (dflt : String) : String :=
  match candidates with
  | [] => dflt
  | c :: rest =>
    match c with
    | none => resolveFromCandidates rest dflt
    | some s =>
      if s = "" then resolveFromCandidates rest dflt
      else
        match matchTime s with
        | some (h, m) => padTo2 h ++ ":" ++ m
        | none => resolveFromCandidates rest dflt

/-- `resolveTemplateStartTime(template)` from the source. -/
def resolveTemplateStartTime (t : ShiftTemplate) : String :=
  resolveFromCandidates [some t.start_time, t.time_start, t.starts_at] "09:00"

/-- `resolveTemplateEndTime(template)` from the source. -/
def resolveTemplateEndTime (t : ShiftTemplate) : String :=
  resolveFromCandidates [some t.end_time, t.time_end, t.ends_at] "11:00"

/-- `toIsoForDateAndTime(date, hhmm)` from the source, rendered with the
zone-less timestamp convention.  Assumes the matched hour/minute are in
range (no JS date rollover for hours above 23 is modelled). -/
def toIsoForDateAndTime (date : CalDate) (hhmm : Option String) : Option String :=
  match hhmm with
  | none => none
  | some s =>
    if s = "" then none
    else
      match matchTime s with
      | none => none
      | some (h, m) =>
        if h = "" || m = "" then none
        else
          some (getDateKey date ++ "T" ++ pad2 ((jsDigits? h).getD 0) ++ ":"
            ++ pad2 ((jsDigits? m).getD 0) ++ ":00.000Z")

/-- A row of the bulk `shift_instances` insert issued by the week view. -/
structure WeekInsertRow where
  template_id : String
  shift_date : String
  starts_at : String
  ends_at : String
deriving DecidableEq, Repr

/-- The `template_id + "-" + day` dedup key of the materializer. -/
def keyOfInsert (r : WeekInsertRow) : String :=
  r.template_id ++ "-" ++ r.shift_date

/-- One `templates.forEach` body of the week materializer loop: skip
inactive templates, skip keys already seen, derive the start/end
timestamps from the template's time-of-day fields anchored to the day,
push the row and record the key. -/
def weekMatStep (day : CalDate) (dayKey : String)
    (acc : List WeekInsertRow × List String) (t : ShiftTemplate) :
    List WeekInsertRow × List String :=
  if t.is_active = false then acc
  else
    if acc.2.contains (t.id ++ "-" ++ dayKey) then acc
    else
      match toIsoForDateAndTime day (some (resolveTemplateStartTime t)),
            toIsoForDateAndTime day (some (resolveTemplateEndTime t)) with
      | some startsAt, some endsAt =>
        (acc.1 ++ [{ template_id := t.id, shift_date := dayKey,
                     starts_at := startsAt, ends_at := endsAt }],
          acc.2 ++ [t.id ++ "-" ++ dayKey])
      | _, _ => acc

/-- One day of the week materializer loop. -/
def weekMatDay (templates : List ShiftTemplate) (day : CalDate)
    (acc : List WeekInsertRow × List String) : List WeekInsertRow × List String :=
  templates.foldl (weekMatStep day (getDateKey day)) acc

/-- The `rowsToInsert` computation of `fetchShiftInstances`: for each of
the seven days of the visible week and each template, in order, collect
the missing `(template, date)` rows.  `existingKeys` seeds the dedup set
with the keys of already persisted instances.  Note: the loop never
consults `shouldIncludeDateForTemplate` (or any recurrence field). -/
def computeWeekRowsToInsert (templates : List ShiftTemplate) (weekStart : CalDate)
    (existingKeys : List String) : List WeekInsertRow × List String :=
  (List.range 7).foldl (fun acc i => weekMatDay templates (addDays weekStart i) acc)
    ([], existingKeys)

/-- `rankFor(assignment)` from the source's slot-display comparator:
pending last (3), admin profile first (0), lead profile or lead
assignment role next (1), the rest (2). -/
def rankFor (a : ShiftAssignmentDetail) : Nat :=
  if a.status == some "pending" then 3
  else if a.volunteer_role == some "Admin" then 0
  else if a.volunteer_role == some "Lead" then 1
  else if a.assignment_role == "lead" then 1
  else 2

/-- `left.created_at ?? ""` of the comparator's tie-breaker. -/
def createdOf (a : ShiftAssignmentDetail) : String :=
  a.created_at.getD ""

/-- The sort key the comparator realizes: rank first, creation time
second. -/
def sortKey (a : ShiftAssignmentDetail) : Nat × String :=
  (rankFor a, createdOf a)

/-- The boolean `compare(left, right) <= 0` relation of the display
comparator (rank difference, then `localeCompare` on `created_at`). -/
def assignLeB (a b : ShiftAssignmentDetail) : Bool :=
  decide (rankFor a < rankFor b)
    || (rankFor a == rankFor b && jsStrLe (createdOf a) (createdOf b))

/-- The comparator as a relation, for the sorting lemmas. -/
def assignLE (a b : ShiftAssignmentDetail) : Prop :=
  assignLeB a b = true

instance : DecidableRel assignLE :=
  fun a b => inferInstanceAs (Decidable (assignLeB a b = true))

/-- `assignmentList.slice().sort(comparator)`: the displayed ordering of
an instance's active/pending assignments.  JS `Array.prototype.sort`
with this total comparator produces the (tie-stable) sorted permutation;
it is modelled by insertion sort under `assignLE`. -/
def sortAssignments (l : List ShiftAssignmentDetail) : List ShiftAssignmentDetail :=
  List.insertionSort assignLE l

/-! ### Generic list lemmas used across the claims -/

theorem foldl_preserve {α β : Type} {f : β → α → β} {P : β → Prop} {l : List α}
    (hstep : ∀ b a, a ∈ l → P b → P (f b a)) {b : β} (hb : P b) : P (l.foldl f b) := by
  induction l generalizing b with
  | nil => exact hb
  | cons a l ih =>
    exact ih (fun b x hx hP => hstep b x (List.mem_cons_of_mem _ hx) hP)
      (hstep b a (List.mem_cons_self _ _) hb)

theorem foldl_reach {α β : Type} {f : β → α → β} {P : β → Prop} {l : List α} {x : α}
    (hmono : ∀ b a, a ∈ l → P b → P (f b a)) (hstep : ∀ b, P (f b x)) (hx : x ∈ l)
    (b : β) : P (l.foldl f b) := by
  induction l generalizing b with
  | nil => cases hx
  | cons a l ih =>
    rcases List.mem_cons.1 hx with rfl | hx2
    · exact foldl_preserve (fun b y hy hP => hmono b y (List.mem_cons_of_mem _ hy) hP) (hstep b)
    · exact ih (fun b y hy hP => hmono b y (List.mem_cons_of_mem _ hy) hP) hx2 (f b a)

theorem length_filter_le_one_of_nodup_map {α β : Type} [DecidableEq β]
    {l : List α} {f : α → β} (h : (l.map f).Nodup) (k : β) :
    (l.filter (fun r => f r == k)).length ≤ 1 := by
  induction l with
  | nil => simp
  | cons a l ih =>
    simp only [List.map_cons, List.nodup_cons, List.mem_map] at h
    by_cases ha : f a = k
    · have : l.filter (fun r => f r == k) = [] := by
        rw [List.filter_eq_nil_iff]
        intro b hb
        simp only [beq_iff_eq]
        intro hkb
        exact h.1 ⟨b, hb, by rw [hkb, ha]⟩
      simp [List.filter_cons, ha, this]
    · simpa [List.filter_cons, ha] using ih h.2

theorem length_filter_pos_of_mem {α : Type} {l : List α} {p : α → Bool} {x : α}
    (hx : x ∈ l) (hp : p x = true) : 1 ≤ (l.filter p).length := by
  have : x ∈ l.filter p := List.mem_filter.2 ⟨hx, hp⟩
  exact List.length_pos.2 (List.ne_nil_of_mem this)

/-! ### Upsert lemmas -/

theorem onConflictKey_applyPayloadFields (iid : Nat) (vid : String)
    (p : AssignmentPayload) (r : AssignmentRow) :
    onConflictKey iid vid (applyPayloadFields p r) = onConflictKey iid vid r := rfl

theorem length_filter_map_keyfix {α : Type} {g : α → α} {q : α → Bool}
    (hg : ∀ r, q (g r) = q r) (l : List α) :
    (List.filter q (l.map g)).length = (List.filter q l).length := by
  induction l with
  | nil => rfl
  | cons a l ih =>
    by_cases ha : q a = true
    · simp [List.filter_cons, hg, ha, ih]
    · simp [List.filter_cons, hg, ha, ih]

theorem countFor_pos_iff_any (store : List AssignmentRow) (iid : Nat) (vid : String) :
    0 < countFor store iid vid ↔ store.any (onConflictKey iid vid) = true := by
  rw [countFor, List.length_pos_iff_exists_mem]
  simp [List.mem_filter, List.any_eq_true]

theorem upsertAssignment_countFor_self (store : List AssignmentRow) (p : AssignmentPayload)
    (now fid : String) (h : countFor store p.shift_instance_id p.volunteer_id ≤ 1) :
    countFor (upsertAssignment store p now fid) p.shift_instance_id p.volunteer_id = 1 := by
  unfold upsertAssignment
  by_cases hany : store.any (onConflictKey p.shift_instance_id p.volunteer_id) = true
  · rw [if_pos hany]
    have hcount := length_filter_map_keyfix (l := store)
      (g := fun r => if onConflictKey p.shift_instance_id p.volunteer_id r then
        applyPayloadFields p r else r)
      (q := onConflictKey p.shift_instance_id p.volunteer_id)
      (fun r => by by_cases hk : onConflictKey p.shift_instance_id p.volunteer_id r = true
                   · simp [hk, onConflictKey_applyPayloadFields]
                   · simp [hk])
    have hpos : 0 < countFor store p.shift_instance_id p.volunteer_id :=
      (countFor_pos_iff_any store _ _).2 hany
    unfold countFor at *
    omega
  · rw [if_neg hany]
    have hzero : countFor store p.shift_instance_id p.volunteer_id = 0 := by
      by_contra hne
      exact hany ((countFor_pos_iff_any store _ _).1 (Nat.pos_of_ne_zero hne))
    unfold countFor at hzero ⊢
    rw [List.filter_append, List.length_append, hzero]
    simp [onConflictKey]

theorem filter_map_keyfix_eq {α : Type} {g : α → α} {q : α → Bool}
    (hq : ∀ r, q (g r) = q r) (hfix : ∀ r, q r = true → g r = r) (l : List α) :
    List.filter q (l.map g) = List.filter q l := by
  induction l with
  | nil => rfl
  | cons a l ih =>
    by_cases ha : q a = true
    · rw [List.map_cons, List.filter_cons, List.filter_cons]
      simp only [hq, ha, if_pos, hfix a ha, ih]
    · rw [List.map_cons, List.filter_cons, List.filter_cons]
      simp only [hq, ha]
      simpa [ha] using ih

theorem upsertAssignment_key_fields (store : List AssignmentRow) (p : AssignmentPayload)
    (now fid : String) (r : AssignmentRow) (hr : r ∈ upsertAssignment store p now fid)
    (hk : onConflictKey p.shift_instance_id p.volunteer_id r = true) :
    r.status = p.status ∧ r.assignment_role = p.assignment_role ∧
      r.dropped_at = p.dropped_at ∧ r.dropped_reason = p.dropped_reason := by
  unfold upsertAssignment at hr
  by_cases hany : store.any (onConflictKey p.shift_instance_id p.volunteer_id) = true
  · rw [if_pos hany] at hr
    rcases List.mem_map.1 hr with ⟨r0, _, him⟩
    by_cases hk0 : onConflictKey p.shift_instance_id p.volunteer_id r0 = true
    · rw [if_pos hk0] at him
      subst him
      simp [applyPayloadFields]
    · rw [if_neg hk0] at him
      subst him
      exact absurd hk hk0
  · rw [if_neg hany] at hr
    rcases List.mem_append.1 hr with hmem | hnew
    · exfalso
      apply hany
      exact List.any_eq_true.2 ⟨r, hmem, hk⟩
    · rcases List.mem_singleton.1 hnew with rfl
      exact ⟨rfl, rfl, rfl, rfl⟩

theorem upsertAssignment_filter_other (store : List AssignmentRow) (p : AssignmentPayload)
    (now fid : String) (iid : Nat) (vid : String)
    (h : ¬(iid = p.shift_instance_id ∧ vid = p.volunteer_id)) :
    (upsertAssignment store p now fid).filter (onConflictKey iid vid)
      = store.filter (onConflictKey iid vid) := by
  unfold upsertAssignment
  by_cases hany : store.any (onConflictKey p.shift_instance_id p.volunteer_id) = true
  · rw [if_pos hany]
    apply filter_map_keyfix_eq
    · intro r
      by_cases hk : onConflictKey p.shift_instance_id p.volunteer_id r = true
      · simp [hk, onConflictKey_applyPayloadFields]
      · simp [hk]
    · intro r hr
      have hne : onConflictKey p.shift_instance_id p.volunteer_id r = false := by
        by_contra hcon
        rw [Bool.not_eq_false] at hcon
        simp only [onConflictKey, Bool.and_eq_true, beq_iff_eq] at hr hcon
        exact h ⟨hr.1.symm.trans hcon.1, hr.2.symm.trans hcon.2⟩
      simp [hne]
  · rw [if_neg hany, List.filter_append]
    have : onConflictKey iid vid
        { id := fid, shift_instance_id := p.shift_instance_id,
          volunteer_id := p.volunteer_id, status := p.status,
          assignment_role := p.assignment_role, dropped_at := p.dropped_at,
          dropped_reason := p.dropped_reason, created_at := now, notes := none } = false := by
      simp only [onConflictKey, Bool.and_eq_false_iff]
      by_cases h1 : iid = p.shift_instance_id
      · right
        subst h1
        simp only [beq_eq_false_iff_ne, ne_eq]
        intro hv
        exact h ⟨rfl, hv.symm⟩
      · left
        simp only [beq_eq_false_iff_ne, ne_eq]
        omega
    simp [this]

theorem takeShift_not_blocked (store : List AssignmentRow)
    (view : List ShiftAssignmentDetail) (uid : String) (iid : Nat) (mode : String)
    (profileRole : Option String) (now fid : String)
    (hview : view.any (fun a => a.volunteer_id == some uid && a.status != some "dropped")
      = false) :
    (handleConfirmTakeShift store view uid (some iid) mode profileRole now fid).1
      = upsertAssignment store
          { shift_instance_id := iid, volunteer_id := uid,
            status := if mode == "join" then "active" else "pending",
            assignment_role := if profileRole == some "Lead" then "lead" else "regular",
            dropped_at := none, dropped_reason := none } now fid := by
  simp [handleConfirmTakeShift, hview]

theorem takeShift_blocked (store : List AssignmentRow)
    (view : List ShiftAssignmentDetail) (uid : String) (iid : Nat) (mode : String)
    (profileRole : Option String) (now fid : String)
    (hview : view.any (fun a => a.volunteer_id == some uid && a.status != some "dropped")
      = true) :
    (handleConfirmTakeShift store view uid (some iid) mode profileRole now fid).1 = store := by
  simp [handleConfirmTakeShift, hview]

/-- C1: invoking the volunteer self-request twice for the same
`(shift instance, volunteer)` pair with no intervening admin action
leaves exactly one assignment row for that pair, with `status =
"pending"`, never two: both writes are upserts keyed on
`(shift_instance_id, volunteer_id)`, so the second invocation (whatever
the client's refreshed view shows) either overwrites the same row or is
blocked client-side.  The hypotheses say the store held at most one row
for the pair (the upsert key is unique) and the first invocation was not
blocked by the client view. -/
theorem selfRequestTwiceLeavesOnePendingRow
    (store : List AssignmentRow) (v1 v2 : List ShiftAssignmentDetail)
    (uid : String) (iid : Nat) (profileRole : Option String)
    (now1 id1 now2 id2 : String)
    (hinv : countFor store iid uid ≤ 1)
    (h1 : v1.any (fun a => a.volunteer_id == some uid && a.status != some "dropped")
      = false) :
    countFor (handleConfirmTakeShift
        (handleConfirmTakeShift store v1 uid (some iid) "request" profileRole now1 id1).1
        v2 uid (some iid) "request" profileRole now2 id2).1 iid uid = 1 ∧
      ∀ r ∈ (handleConfirmTakeShift
        (handleConfirmTakeShift store v1 uid (some iid) "request" profileRole now1 id1).1
        v2 uid (some iid) "request" profileRole now2 id2).1,
        onConflictKey iid uid r = true → r.status = "pending" := by
  rw [takeShift_not_blocked store v1 uid iid "request" profileRole now1 id1 h1]
  by_cases h2 : v2.any (fun a => a.volunteer_id == some uid && a.status != some "dropped")
      = true
  · rw [takeShift_blocked _ v2 uid iid "request" profileRole now2 id2 h2]
    refine ⟨upsertAssignment_countFor_self store _ now1 id1 hinv, ?_⟩
    intro r hr hk
    exact (upsertAssignment_key_fields store _ now1 id1 r hr hk).1
  · rw [takeShift_not_blocked _ v2 uid iid "request" profileRole now2 id2
      (Bool.not_eq_true _ ▸ h2)]
    have hcount1 := upsertAssignment_countFor_self store
      { shift_instance_id := iid, volunteer_id := uid, status := "pending",
        assignment_role := if profileRole == some "Lead" then "lead" else "regular",
        dropped_at := none, dropped_reason := none } now1 id1 hinv
    refine ⟨upsertAssignment_countFor_self _ _ now2 id2 (Nat.le_of_eq hcount1), ?_⟩
    intro r hr hk
    exact (upsertAssignment_key_fields _ _ now2 id2 r hr hk).1

def c1WitnessView : List ShiftAssignmentDetail :=
  [{ id := "a9", created_at := some "2026-01-01T08:00:00.000Z", status := some "dropped",
     assignment_role := "regular", volunteer_id := some "vol-1",
     volunteer_role := some "Regular Volunteer" }]

theorem selfRequestTwiceLeavesOnePendingRow_witness :
    countFor (handleConfirmTakeShift
        (handleConfirmTakeShift [] c1WitnessView "vol-1" (some 10) "request"
          (some "Regular Volunteer") "2026-01-02T09:00:00.000Z" "a1").1
        [] "vol-1" (some 10) "request"
        (some "Regular Volunteer") "2026-01-02T09:05:00.000Z" "a2").1 10 "vol-1" = 1 ∧
      ∀ r ∈ (handleConfirmTakeShift
        (handleConfirmTakeShift [] c1WitnessView "vol-1" (some 10) "request"
          (some "Regular Volunteer") "2026-01-02T09:00:00.000Z" "a1").1
        [] "vol-1" (some 10) "request"
        (some "Regular Volunteer") "2026-01-02T09:05:00.000Z" "a2").1,
        onConflictKey 10 "vol-1" r = true → r.status = "pending" :=
  selfRequestTwiceLeavesOnePendingRow [] c1WitnessView [] "vol-1" 10
    (some "Regular Volunteer") "2026-01-02T09:00:00.000Z" "a1"
    "2026-01-02T09:05:00.000Z" "a2" (by decide) (by decide)

/-- C10 (implicit): the self-request/self-join upsert of
`handleConfirmTakeShift` always writes `dropped_at = null` and
`dropped_reason = null` along with the new status, so a volunteer whose
previous row for the instance was dropped gets that row's drop metadata
cleared on re-request (`status = "pending"`) or re-join
(`status = "active"`). -/
theorem selfTakeShiftClearsDropMetadata
    (store : List AssignmentRow) (view : List ShiftAssignmentDetail)
    (uid : String) (iid : Nat) (mode : String) (profileRole : Option String)
    (now fid : String)
    (hinv : countFor store iid uid ≤ 1)
    (hprior : ∃ r ∈ store, onConflictKey iid uid r = true ∧ r.status = "dropped"
      ∧ r.dropped_at ≠ none)
    (hview : view.any (fun a => a.volunteer_id == some uid && a.status != some "dropped")
      = false) :
    countFor (handleConfirmTakeShift store view uid (some iid) mode profileRole
        now fid).1 iid uid = 1 ∧
      ∀ r ∈ (handleConfirmTakeShift store view uid (some iid) mode profileRole
        now fid).1, onConflictKey iid uid r = true →
        r.dropped_at = none ∧ r.dropped_reason = none ∧
          r.status = (if mode == "join" then "active" else "pending") := by
  rw [takeShift_not_blocked store view uid iid mode profileRole now fid hview]
  refine ⟨upsertAssignment_countFor_self store _ now fid hinv, ?_⟩
  intro r hr hk
  have hfields := upsertAssignment_key_fields store _ now fid r hr hk
  exact ⟨hfields.2.2.1, hfields.2.2.2, hfields.1⟩

def c10WitnessStore : List AssignmentRow :=
  [{ id := "a0", shift_instance_id := 10, volunteer_id := "vol-1", status := "dropped",
     assignment_role := "regular", dropped_at := some "2026-01-01T10:00:00.000Z",
     dropped_reason := some "Sick", created_at := "2025-12-28T09:00:00.000Z",
     notes := none }]

theorem selfTakeShiftClearsDropMetadata_witness :
    countFor (handleConfirmTakeShift c10WitnessStore [] "vol-1" (some 10) "request"
        (some "Regular Volunteer") "2026-01-02T09:00:00.000Z" "a1").1 10 "vol-1" = 1 ∧
      ∀ r ∈ (handleConfirmTakeShift c10WitnessStore [] "vol-1" (some 10) "request"
        (some "Regular Volunteer") "2026-01-02T09:00:00.000Z" "a1").1,
        onConflictKey 10 "vol-1" r = true →
        r.dropped_at = none ∧ r.dropped_reason = none ∧
          r.status = (if ("request" == "join") then "active" else "pending") :=
  selfTakeShiftClearsDropMetadata c10WitnessStore [] "vol-1" 10 "request"
    (some "Regular Volunteer") "2026-01-02T09:00:00.000Z" "a1" (by decide)
    ⟨{ id := "a0", shift_instance_id := 10, volunteer_id := "vol-1", status := "dropped",
       assignment_role := "regular", dropped_at := some "2026-01-01T10:00:00.000Z",
       dropped_reason := some "Sick", created_at := "2025-12-28T09:00:00.000Z",
       notes := none }, by decide, by decide, by decide, by decide⟩ (by decide)

/-- C7: admin-assign of a volunteer with a prior dropped row for the
same `(instance, volunteer)` pair results in exactly one row for the
pair with `status = "active"`, `dropped_at = null` and `dropped_reason =
null` — the upsert clears the previous drop metadata rather than
retaining it. -/
theorem adminAssignClearsDropMetadata
    (store : List AssignmentRow) (iid : Nat) (volunteers : List VolunteerRow)
    (vid : String) (vrec : VolunteerRow) (now fid : String)
    (hfind : volunteers.find? (fun v => v.id == vid) = some vrec)
    (hinv : countFor store iid vid ≤ 1)
    (hprior : ∃ r ∈ store, onConflictKey iid vid r = true ∧ r.status = "dropped"
      ∧ r.dropped_at ≠ none ∧ r.dropped_reason ≠ none) :
    countFor (handleAssignVolunteer store (some iid) volunteers vid now fid).1 iid vid = 1 ∧
      ∀ r ∈ (handleAssignVolunteer store (some iid) volunteers vid now fid).1,
        onConflictKey iid vid r = true →
        r.status = "active" ∧ r.dropped_at = none ∧ r.dropped_reason = none := by
  have hres : (handleAssignVolunteer store (some iid) volunteers vid now fid).1
      = upsertAssignment store
          { shift_instance_id := iid, volunteer_id := vid, status := "active",
            assignment_role := if vrec.role == "Lead" then "lead" else "regular",
            dropped_at := none, dropped_reason := none } now fid := by
    simp [handleAssignVolunteer, hfind]
  rw [hres]
  refine ⟨upsertAssignment_countFor_self store _ now fid hinv, ?_⟩
  intro r hr hk
  have hfields := upsertAssignment_key_fields store _ now fid r hr hk
  exact ⟨hfields.1, hfields.2.2.1, hfields.2.2.2⟩

def c7WitnessStore : List AssignmentRow :=
  [{ id := "a0", shift_instance_id := 11, volunteer_id := "vol-2", status := "dropped",
     assignment_role := "regular", dropped_at := some "2026-01-01T10:00:00.000Z",
     dropped_reason := some "No show", created_at := "2025-12-28T09:00:00.000Z",
     notes := none }]

theorem adminAssignClearsDropMetadata_witness :
    countFor (handleAssignVolunteer c7WitnessStore (some 11) [⟨"vol-2", "Lead"⟩]
        "vol-2" "2026-01-02T09:00:00.000Z" "a1").1 11 "vol-2" = 1 ∧
      ∀ r ∈ (handleAssignVolunteer c7WitnessStore (some 11) [⟨"vol-2", "Lead"⟩]
        "vol-2" "2026-01-02T09:00:00.000Z" "a1").1,
        onConflictKey 11 "vol-2" r = true →
        r.status = "active" ∧ r.dropped_at = none ∧ r.dropped_reason = none :=
  adminAssignClearsDropMetadata c7WitnessStore 11 [⟨"vol-2", "Lead"⟩] "vol-2"
    ⟨"vol-2", "Lead"⟩ "2026-01-02T09:00:00.000Z" "a1" (by decide) (by decide)
    ⟨{ id := "a0", shift_instance_id := 11, volunteer_id := "vol-2", status := "dropped",
       assignment_role := "regular", dropped_at := some "2026-01-01T10:00:00.000Z",
       dropped_reason := some "No show", created_at := "2025-12-28T09:00:00.000Z",
       notes := none }, by decide, by decide, by decide, by decide, by decide⟩

/-- C8: calling deny with an empty or whitespace-only reason performs no
write at all: the validation fails before any store call, an inline
message is surfaced, no push call is made, and the store — every field
of every assignment row — is unchanged (so a pending target row stays
pending). -/
theorem denyEmptyReasonIsNoWrite (store : List AssignmentRow)
    (targetId reason now : String) (h : jsTrim reason = "") :
    handleConfirmDeny store (some targetId) reason now
      = (store, some "Please add a denial reason.", []) := by
  simp [handleConfirmDeny, h]

def c8WitnessStore : List AssignmentRow :=
  [{ id := "a4", shift_instance_id := 12, volunteer_id := "vol-3", status := "pending",
     assignment_role := "regular", dropped_at := none, dropped_reason := none,
     created_at := "2026-01-01T09:00:00.000Z", notes := none }]

theorem denyEmptyReasonIsNoWrite_witness :
    handleConfirmDeny c8WitnessStore (some "a4") "   " "2026-01-02T09:00:00.000Z"
      = (c8WitnessStore, some "Please add a denial reason.", []) :=
  denyEmptyReasonIsNoWrite c8WitnessStore "a4" "   " "2026-01-02T09:00:00.000Z" (by decide)

/-! ### C5: admin deny updates the row but sends no push notification -/

def c5Store : List AssignmentRow :=
  [{ id := "a5", shift_instance_id := 13, volunteer_id := "vol-4", status := "pending",
     assignment_role := "regular", dropped_at := none, dropped_reason := none,
     created_at := "2026-01-01T09:00:00.000Z", notes := none }]

/-- C5 counterexample: denying the pending request `a5` with a non-empty
reason updates the row to dropped with the reason and timestamp, yet the
handler makes no push call at all — the effect list is empty, refuting
"a push notification is sent to the requesting volunteer" (compare the
approve path, which does push). -/
theorem adminDenySendsNoPush_counterexample :
    (handleConfirmDeny c5Store (some "a5") "Schedule conflict"
        "2026-01-02T09:00:00.000Z").2.2 = [] ∧
      (handleConfirmDeny c5Store (some "a5") "Schedule conflict"
        "2026-01-02T09:00:00.000Z").1 =
        [{ id := "a5", shift_instance_id := 13, volunteer_id := "vol-4",
           status := "dropped", assignment_role := "regular",
           dropped_at := some "2026-01-02T09:00:00.000Z",
           dropped_reason := some "Schedule conflict",
           created_at := "2026-01-01T09:00:00.000Z", notes := none }] := by
  decide

/-- C5 (amended): for every admin denial with a non-empty (after
trimming) reason, the target row is updated by id to `status =
"dropped"` with `dropped_at = now` and `dropped_reason` the trimmed
reason, every other row is untouched — and no push notification is sent
to the requesting volunteer (the deny path performs no push call). -/
theorem adminDenyUpdatesRowWithoutPush (store : List AssignmentRow)
    (targetId reason now : String) (h : jsTrim reason ≠ "") :
    (∀ r ∈ store, r.id = targetId →
        { r with status := "dropped", dropped_at := some now,
                 dropped_reason := some (jsTrim reason) }
          ∈ (handleConfirmDeny store (some targetId) reason now).1) ∧
      (∀ r ∈ store, r.id ≠ targetId →
        r ∈ (handleConfirmDeny store (some targetId) reason now).1) ∧
      (handleConfirmDeny store (some targetId) reason now).2.1 = none ∧
      (handleConfirmDeny store (some targetId) reason now).2.2 = [] := by
  have hres : handleConfirmDeny store (some targetId) reason now
      = (store.map (fun r =>
          if r.id == targetId then
            { r with status := "dropped", dropped_at := some now,
                     dropped_reason := some (jsTrim reason) }
          else r), none, []) := by
    simp [handleConfirmDeny, h]
  rw [hres]
  refine ⟨?_, ?_, rfl, rfl⟩
  · intro r hr hid
    refine List.mem_map.2 ⟨r, hr, ?_⟩
    simp [hid]
  · intro r hr hid
    refine List.mem_map.2 ⟨r, hr, ?_⟩
    simp [hid]

theorem adminDenyUpdatesRowWithoutPush_witness :
    (∀ r ∈ c5Store, r.id = "a5" →
        { r with status := "dropped", dropped_at := some "2026-01-02T09:00:00.000Z",
                 dropped_reason := some (jsTrim "Schedule conflict") }
          ∈ (handleConfirmDeny c5Store (some "a5") "Schedule conflict"
              "2026-01-02T09:00:00.000Z").1) ∧
      (∀ r ∈ c5Store, r.id ≠ "a5" →
        r ∈ (handleConfirmDeny c5Store (some "a5") "Schedule conflict"
          "2026-01-02T09:00:00.000Z").1) ∧
      (handleConfirmDeny c5Store (some "a5") "Schedule conflict"
        "2026-01-02T09:00:00.000Z").2.1 = none ∧
      (handleConfirmDeny c5Store (some "a5") "Schedule conflict"
        "2026-01-02T09:00:00.000Z").2.2 = [] :=
  adminDenyUpdatesRowWithoutPush c5Store "a5" "Schedule conflict"
    "2026-01-02T09:00:00.000Z" (by decide)

/-! ### C6: explicit BYDAY weekday filtering -/

def mondayWednesdayTemplate : ShiftTemplate :=
  { id := "tmpl-mw", title := "Morning care", start_time := "09:00",
    end_time := "11:00", rrule := some "FREQ=WEEKLY;BYDAY=MO,WE", is_active := true }

set_option maxRecDepth 40000 in
/-- C6: for every template whose rrule carries an explicit BYDAY set,
the per-date inclusion decision equals membership of the date's
two-letter weekday code in that set; concretely, with `byday =
{MO, WE}` the decision over a 90-day window is true exactly on Mondays
(`getDay = 1`) and Wednesdays (`getDay = 3`). -/
theorem explicitBydayInclusion :
    (∀ (t : ShiftTemplate) (d : CalDate) (code : String),
        parseRRuleDays t.rrule ≠ [] →
        getDayCode (some (getDateKey d)) = some code →
        shouldIncludeDateForTemplate d t = (parseRRuleDays t.rrule).contains code) ∧
      (∀ d ∈ (List.range 90).map (addDays ⟨2026, 1, 5⟩),
        shouldIncludeDateForTemplate d mondayWednesdayTemplate
          = (getDay d == 1 || getDay d == 3)) := by
  constructor
  · intro t d code hne hcode
    rcases hru : t.rrule with _ | r
    · rw [hru] at hne
      simp [parseRRuleDays] at hne
    · rw [hru] at hne
      simp only [shouldIncludeDateForTemplate, hru, hcode]
      rw [if_pos (List.length_pos.2 hne)]
  · decide

theorem explicitBydayInclusion_witness :
    shouldIncludeDateForTemplate ⟨2026, 1, 7⟩ mondayWednesdayTemplate
      = (parseRRuleDays mondayWednesdayTemplate.rrule).contains "WE" :=
  explicitBydayInclusion.1 mondayWednesdayTemplate ⟨2026, 1, 7⟩ "WE"
    (by decide) (by decide)

/-! ### Order lemmas for the codepoint comparison -/

theorem charsLe_cons_iff (x y : Char) (as bs : List Char) :
    charsLe (x :: as) (y :: bs) = true ↔ x < y ∨ (x = y ∧ charsLe as bs = true) := by
  by_cases h1 : x < y
  · simp [charsLe, h1]
  · by_cases h2 : y < x
    · have hne : ¬(x = y) := fun he => absurd (he ▸ h2) (lt_irrefl x)
      simp [charsLe, h1, h2, hne]
    · have heq : x = y := le_antisymm (not_lt.1 h2) (not_lt.1 h1)
      simp [charsLe, h1, h2, heq]

theorem charsLe_total : ∀ a b : List Char, charsLe a b = true ∨ charsLe b a = true := by
  intro a
  induction a with
  | nil =>
    intro b
    left
    rfl
  | cons x as ih =>
    intro b
    cases b with
    | nil =>
      right
      rfl
    | cons y bs =>
      rcases lt_trichotomy x y with h | h | h
      · left
        exact (charsLe_cons_iff x y as bs).2 (Or.inl h)
      · rcases ih bs with hr | hr
        · left
          exact (charsLe_cons_iff x y as bs).2 (Or.inr ⟨h, hr⟩)
        · right
          exact (charsLe_cons_iff y x bs as).2 (Or.inr ⟨h.symm, hr⟩)
      · right
        exact (charsLe_cons_iff y x bs as).2 (Or.inl h)

theorem charsLe_trans : ∀ a b c : List Char,
    charsLe a b = true → charsLe b c = true → charsLe a c = true := by
  intro a
  induction a with
  | nil =>
    intro b c _ _
    rfl
  | cons x as ih =>
    intro b c h1 h2
    cases b with
    | nil => simp [charsLe] at h1
    | cons y bs =>
      cases c with
      | nil => simp [charsLe] at h2
      | cons z cs =>
        rcases (charsLe_cons_iff x y as bs).1 h1 with hxy | ⟨hxy, hr1⟩ <;>
          rcases (charsLe_cons_iff y z bs cs).1 h2 with hyz | ⟨hyz, hr2⟩
        · exact (charsLe_cons_iff x z as cs).2 (Or.inl (lt_trans hxy hyz))
        · exact (charsLe_cons_iff x z as cs).2 (Or.inl (hyz ▸ hxy))
        · exact (charsLe_cons_iff x z as cs).2 (Or.inl (hxy ▸ hyz))
        · exact (charsLe_cons_iff x z as cs).2 (Or.inr ⟨hxy.trans hyz, ih bs cs hr1 hr2⟩)

theorem charsLe_antisymm : ∀ a b : List Char,
    charsLe a b = true → charsLe b a = true → a = b := by
  intro a
  induction a with
  | nil =>
    intro b h1 h2
    cases b with
    | nil => rfl
    | cons y bs => simp [charsLe] at h2
  | cons x as ih =>
    intro b h1 h2
    cases b with
    | nil => simp [charsLe] at h1
    | cons y bs =>
      rcases (charsLe_cons_iff x y as bs).1 h1 with hxy | ⟨hxy, hr1⟩ <;>
        rcases (charsLe_cons_iff y x bs as).1 h2 with hyx | ⟨hyx, hr2⟩
      · exact absurd hyx (lt_asymm hxy)
      · exact absurd (hyx ▸ hxy) (lt_irrefl x)
      · exact absurd (hxy ▸ hyx) (lt_irrefl y)
      · rw [hxy, ih bs hr1 hr2]

theorem jsStrLe_total (s t : String) : jsStrLe s t = true ∨ jsStrLe t s = true :=
  charsLe_total s.data t.data

theorem jsStrLe_trans (s t u : String) (h1 : jsStrLe s t = true)
    (h2 : jsStrLe t u = true) : jsStrLe s u = true :=
  charsLe_trans s.data t.data u.data h1 h2

theorem jsStrLe_antisymm (s t : String) (h1 : jsStrLe s t = true)
    (h2 : jsStrLe t s = true) : s = t := by
  cases s with
  | mk a =>
    cases t with
    | mk b =>
      have := charsLe_antisymm a b h1 h2
      rw [this]

/-! ### C9: slot ranking determinism -/

theorem assignLeB_total (a b : ShiftAssignmentDetail) :
    assignLeB a b = true ∨ assignLeB b a = true := by
  unfold assignLeB
  rcases Nat.lt_trichotomy (rankFor a) (rankFor b) with h | h | h
  · left
    simp [h]
  · rcases jsStrLe_total (createdOf a) (createdOf b) with hc | hc
    · left
      simp [h, hc]
    · right
      simp [h.symm, hc]
  · right
    simp [h]

theorem assignLeB_trans (a b c : ShiftAssignmentDetail)
    (h1 : assignLeB a b = true) (h2 : assignLeB b c = true) : assignLeB a c = true := by
  unfold assignLeB at h1 h2 ⊢
  simp only [Bool.or_eq_true, decide_eq_true_eq, Bool.and_eq_true, beq_iff_eq] at h1 h2 ⊢
  rcases h1 with h1 | ⟨h1e, h1c⟩ <;> rcases h2 with h2 | ⟨h2e, h2c⟩
  · left
    omega
  · left
    omega
  · left
    omega
  · right
    exact ⟨by omega, jsStrLe_trans _ _ _ h1c h2c⟩

instance : IsTotal ShiftAssignmentDetail assignLE :=
  ⟨fun a b => assignLeB_total a b⟩

instance : IsTrans ShiftAssignmentDetail assignLE :=
  ⟨fun a b c => assignLeB_trans a b c⟩

theorem sortKey_eq_of_le_le (a b : ShiftAssignmentDetail)
    (h1 : assignLE a b) (h2 : assignLE b a) : sortKey a = sortKey b := by
  unfold assignLE assignLeB at h1 h2
  simp only [Bool.or_eq_true, decide_eq_true_eq, Bool.and_eq_true, beq_iff_eq] at h1 h2
  rcases h1 with h1 | ⟨h1e, h1c⟩ <;> rcases h2 with h2 | ⟨h2e, h2c⟩
  · omega
  · omega
  · omega
  · simp [sortKey, h1e, jsStrLe_antisymm _ _ h1c h2c]

theorem sorted_nodupkeys_unique : ∀ {l₁ l₂ : List ShiftAssignmentDetail},
    l₁.Perm l₂ → (l₁.map sortKey).Nodup →
    l₁.Sorted assignLE → l₂.Sorted assignLE → l₁ = l₂ := by
  intro l₁
  induction l₁ with
  | nil =>
    intro l₂ hp _ _ _
    exact hp.nil_eq
  | cons a t ih =>
    intro l₂ hp hnd hs₁ hs₂
    cases l₂ with
    | nil =>
      have := hp.length_eq
      simp at this
    | cons b t₂ =>
      have hab : a = b := by
        by_contra hne
        have haIn : a ∈ b :: t₂ := hp.subset (List.mem_cons_self a t)
        have hbIn : b ∈ a :: t := hp.symm.subset (List.mem_cons_self b t₂)
        have haIn₂ : a ∈ t₂ := by
          rcases List.mem_cons.1 haIn with h | h
          · exact absurd h hne
          · exact h
        have hbIn₂ : b ∈ t := by
          rcases List.mem_cons.1 hbIn with h | h
          · exact absurd h.symm hne
          · exact h
        have h1 : assignLE a b := (List.sorted_cons.1 hs₁).1 b hbIn₂
        have h2 : assignLE b a := (List.sorted_cons.1 hs₂).1 a haIn₂
        have hkey : sortKey a = sortKey b := sortKey_eq_of_le_le a b h1 h2
        have hmem : sortKey b ∈ t.map sortKey := List.mem_map_of_mem sortKey hbIn₂
        rw [← hkey] at hmem
        simp only [List.map_cons, List.nodup_cons] at hnd
        exact hnd.1 hmem
      subst hab
      have hnd' : (t.map sortKey).Nodup := by
        simp only [List.map_cons, List.nodup_cons] at hnd
        exact hnd.2
      have := ih hp.cons_inv hnd' (List.sorted_cons.1 hs₁).2 (List.sorted_cons.1 hs₂).2
      rw [this]

theorem sortAssignments_perm_invariant (l₁ l₂ : List ShiftAssignmentDetail)
    (hp : l₁.Perm l₂) (hnd : (l₁.map sortKey).Nodup) :
    sortAssignments l₁ = sortAssignments l₂ := by
  have hperm : (sortAssignments l₁).Perm (sortAssignments l₂) :=
    (List.perm_insertionSort assignLE l₁).trans
      (hp.trans (List.perm_insertionSort assignLE l₂).symm)
  have hnd₁ : ((sortAssignments l₁).map sortKey).Nodup :=
    (((List.perm_insertionSort assignLE l₁).map sortKey).nodup_iff).2 hnd
  exact sorted_nodupkeys_unique hperm hnd₁
    (List.sorted_insertionSort assignLE l₁) (List.sorted_insertionSort assignLE l₂)

def exA (t1 : String) : ShiftAssignmentDetail :=
  { id := "A", created_at := some t1, status := some "active",
    assignment_role := "regular", volunteer_id := some "va",
    volunteer_role := some "Regular Volunteer" }

def exB (t2 : String) : ShiftAssignmentDetail :=
  { id := "B", created_at := some t2, status := some "active",
    assignment_role := "lead", volunteer_id := some "vb",
    volunteer_role := some "Regular Volunteer" }

def exC (t3 : String) : ShiftAssignmentDetail :=
  { id := "C", created_at := some t3, status := some "pending",
    assignment_role := "regular", volunteer_id := some "vc",
    volunteer_role := some "Regular Volunteer" }

/-- C9: the displayed ranking of an instance's assignments is a function
of the assignments alone — any two input orders of the same assignments
sort identically, provided the rule's own keys (rank, then
`created_at`) distinguish them — and concretely A(regular, t1),
B(assignment_role lead, t2), C(pending, t3) always render as
[B, A, C] whatever the input order. -/
theorem slotRankingDeterministic :
    (∀ l₁ l₂ : List ShiftAssignmentDetail, l₁.Perm l₂ → (l₁.map sortKey).Nodup →
        sortAssignments l₁ = sortAssignments l₂) ∧
      (∀ (t1 t2 t3 : String) (l : List ShiftAssignmentDetail),
        l.Perm [exA t1, exB t2, exC t3] →
        sortAssignments l = [exB t2, exA t1, exC t3]) := by
  refine ⟨sortAssignments_perm_invariant, ?_⟩
  intro t1 t2 t3 l hp
  have hnd : (([exA t1, exB t2, exC t3] : List ShiftAssignmentDetail).map sortKey).Nodup := by
    simp [sortKey, rankFor, createdOf, exA, exB, exC, Prod.ext_iff]
  rw [sortAssignments_perm_invariant l [exA t1, exB t2, exC t3] hp
    (((hp.map sortKey).nodup_iff).2 hnd)]
  simp [sortAssignments, List.insertionSort, List.orderedInsert, assignLE, assignLeB,
    rankFor, createdOf, exA, exB, exC]

theorem slotRankingDeterministic_witness :
    sortAssignments [exC "2026-01-03T00:00:00.000Z", exB "2026-01-02T00:00:00.000Z",
        exA "2026-01-01T00:00:00.000Z"]
      = [exB "2026-01-02T00:00:00.000Z", exA "2026-01-01T00:00:00.000Z",
         exC "2026-01-03T00:00:00.000Z"] :=
  slotRankingDeterministic.2 "2026-01-01T00:00:00.000Z" "2026-01-02T00:00:00.000Z"
    "2026-01-03T00:00:00.000Z" _ (by decide)

/-! ### C2/C3 range-filter and bulk-upsert lemmas -/

theorem recurringRangeFilter_of_shiftdate (S E A B : String) (r : InstanceRow)
    (k : String) (hk : r.shift_date = some k) (hAB : jsStrLe A B = true) :
    recurringRangeFilter S E A B r = true := by
  unfold recurringRangeFilter
  rcases jsStrLe_total A k with h | h
  · have : pgGe r.shift_date A = true := by
      simp [pgGe, hk, h]
    simp [this]
  · have : pgLe r.shift_date B = true := by
      simp [pgLe, hk, jsStrLe_trans k A B h hAB]
    simp [this]

theorem recurringSelectInstances_all (instances : List InstanceRow)
    (tid A B : String) (endDate : CalDate)
    (hdates : ∀ i ∈ instances, ∃ k, i.shift_date = some k)
    (hAB : jsStrLe A B = true) :
    recurringSelectInstances instances tid A B endDate
      = instances.filter (fun i => i.template_id == tid) := by
  unfold recurringSelectInstances
  apply List.filter_congr
  intro i hi
  rcases hdates i hi with ⟨k, hk⟩
  rw [recurringRangeFilter_of_shiftdate _ _ A B i k hk hAB]
  simp

/-- The per-key store state the recurring bulk upsert establishes:
exactly one row for the `(instance, volunteer)` key, and every row on
the key is active with cleared drop metadata. -/
def keyActiveClean (s : List AssignmentRow) (iid : Nat) (vid : String) : Prop :=
  countFor s iid vid = 1 ∧ ∀ r ∈ s, onConflictKey iid vid r = true →
    r.status = "active" ∧ r.dropped_at = none ∧ r.dropped_reason = none

/-- The shape every payload of the recurring bulk upsert has for a
fixed volunteer. -/
def activePayloadShape (vid : String) (p : AssignmentPayload) : Prop :=
  p.volunteer_id = vid ∧ p.status = "active" ∧ p.dropped_at = none ∧ p.dropped_reason = none

theorem countFor_eq_of_filter_eq {s₁ s₂ : List AssignmentRow} {iid : Nat} {vid : String}
    (h : s₁.filter (onConflictKey iid vid) = s₂.filter (onConflictKey iid vid)) :
    countFor s₁ iid vid = countFor s₂ iid vid := by
  unfold countFor
  rw [h]

theorem upsert_preserves_keyActiveClean (store : List AssignmentRow)
    (p : AssignmentPayload) (now fid : String) (iid : Nat) (vid : String)
    (hshape : activePayloadShape vid p)
    (hst : keyActiveClean store iid vid) :
    keyActiveClean (upsertAssignment store p now fid) iid vid := by
  by_cases hid : p.shift_instance_id = iid
  · constructor
    · have h1 := upsertAssignment_countFor_self store p now fid
        (by rw [hid, hshape.1]; exact le_of_eq hst.1)
      rw [hid, hshape.1] at h1
      exact h1
    · intro r hr hk
      have hk' : onConflictKey p.shift_instance_id p.volunteer_id r = true := by
        rw [hid, hshape.1]
        exact hk
      have hf := upsertAssignment_key_fields store p now fid r hr hk'
      exact ⟨hf.1.trans hshape.2.1, hf.2.2.1.trans hshape.2.2.1,
        hf.2.2.2.trans hshape.2.2.2⟩
  · have hfe := upsertAssignment_filter_other store p now fid iid vid
      (fun hcon => hid hcon.1.symm)
    constructor
    · rw [countFor_eq_of_filter_eq hfe]
      exact hst.1
    · intro r hr hk
      have hmem : r ∈ (upsertAssignment store p now fid).filter (onConflictKey iid vid) :=
        List.mem_filter.2 ⟨hr, hk⟩
      rw [hfe] at hmem
      have := List.mem_filter.1 hmem
      exact hst.2 r this.1 this.2

theorem bulkUpsert_preserves_keyActiveClean (ps : List AssignmentPayload)
    (store : List AssignmentRow) (now : String) (iid : Nat) (vid : String)
    (hshape : ∀ p ∈ ps, activePayloadShape vid p)
    (hst : keyActiveClean store iid vid) :
    keyActiveClean (bulkUpsert store ps now) iid vid := by
  induction ps generalizing store with
  | nil => exact hst
  | cons p ps ih =>
    unfold bulkUpsert at ih ⊢
    rw [List.foldl_cons]
    exact ih _ (fun q hq => hshape q (List.mem_cons_of_mem _ hq))
      (upsert_preserves_keyActiveClean store p now _ iid vid
        (hshape p (List.mem_cons_self _ _)) hst)

theorem bulkUpsert_establishes_keyActiveClean (ps : List AssignmentPayload)
    (store : List AssignmentRow) (now : String) (iid : Nat) (vid : String)
    (hshape : ∀ p ∈ ps, activePayloadShape vid p)
    (hmem : iid ∈ ps.map (fun p => p.shift_instance_id))
    (hinv : countFor store iid vid ≤ 1) :
    keyActiveClean (bulkUpsert store ps now) iid vid := by
  induction ps generalizing store with
  | nil => cases hmem
  | cons p ps ih =>
    unfold bulkUpsert at ih ⊢
    rw [List.foldl_cons]
    by_cases hid : p.shift_instance_id = iid
    · apply bulkUpsert_preserves_keyActiveClean ps _ now iid vid
        (fun q hq => hshape q (List.mem_cons_of_mem _ hq))
      have hsh := hshape p (List.mem_cons_self _ _)
      constructor
      · have h1 := upsertAssignment_countFor_self store p now
          ("ra-" ++ toString p.shift_instance_id) (by rw [hid, hsh.1]; exact hinv)
        rw [← hid, ← hsh.1]
        exact h1
      · intro r hr hk
        have hk' : onConflictKey p.shift_instance_id p.volunteer_id r = true := by
          rw [hid, hsh.1]
          exact hk
        have hf := upsertAssignment_key_fields store p now
          ("ra-" ++ toString p.shift_instance_id) r hr hk'
        exact ⟨hf.1.trans hsh.2.1, hf.2.2.1.trans hsh.2.2.1, hf.2.2.2.trans hsh.2.2.2⟩
    · have hmem' : iid ∈ ps.map (fun p => p.shift_instance_id) := by
        rcases List.mem_map.1 hmem with ⟨q, hq, hqe⟩
        rcases List.mem_cons.1 hq with rfl | hq2
        · exact absurd hqe hid
        · exact List.mem_map.2 ⟨q, hq2, hqe⟩
      have hfe := upsertAssignment_filter_other store p now
        ("ra-" ++ toString p.shift_instance_id) iid vid (fun hcon => hid hcon.1.symm)
      exact ih _ (fun q hq => hshape q (List.mem_cons_of_mem _ hq))
        hmem' ((le_of_eq (countFor_eq_of_filter_eq hfe)).trans hinv)

theorem bulkUpsert_filter_absent (ps : List AssignmentPayload)
    (store : List AssignmentRow) (now : String) (iid : Nat) (vid : String)
    (h : ∀ p ∈ ps, ¬(iid = p.shift_instance_id ∧ vid = p.volunteer_id)) :
    (bulkUpsert store ps now).filter (onConflictKey iid vid)
      = store.filter (onConflictKey iid vid) := by
  induction ps generalizing store with
  | nil => rfl
  | cons p ps ih =>
    unfold bulkUpsert at ih ⊢
    rw [List.foldl_cons]
    rw [ih _ (fun q hq => h q (List.mem_cons_of_mem _ hq))]
    exact upsertAssignment_filter_other store p now _ iid vid (h p (List.mem_cons_self _ _))

theorem handleRecurringSave_assignments (vol : VolunteerRow) (form : RecurringForm)
    (days : List String) (today : CalDate) (instances : List InstanceRow)
    (st : RecurringState) (pid now : String)
    (htid : ¬(form.templateId = "")) (hstart : ¬(form.startsOn = ""))
    (hdays : ¬(days = [])) :
    (handleRecurringSave (some vol) form days today instances st pid now).1.assignments
      = (if 0 < ((recurringSelectInstances instances form.templateId form.startsOn
            (recurringRangeEnd (some form.endsOn) today)
            ((parseDateOnly (recurringRangeEnd (some form.endsOn) today)).getD
              today)).filter (recurringDayMatch days)).length then
          bulkUpsert st.assignments
            (((recurringSelectInstances instances form.templateId form.startsOn
                (recurringRangeEnd (some form.endsOn) today)
                ((parseDateOnly (recurringRangeEnd (some form.endsOn) today)).getD
                  today)).filter (recurringDayMatch days)).map (fun i =>
              { shift_instance_id := i.id, volunteer_id := vol.id, status := "active",
                assignment_role := if vol.role == "Lead" then "lead" else "regular",
                dropped_at := none, dropped_reason := none })) now
        else st.assignments) := by
  have hlen : 0 < days.length := List.length_pos.2 hdays
  simp only [handleRecurringSave, if_neg htid, if_neg hstart, if_neg hdays,
    gt_iff_lt, if_pos hlen]
  by_cases hF : 0 < ((recurringSelectInstances instances form.templateId form.startsOn
      (recurringRangeEnd (some form.endsOn) today)
      ((parseDateOnly (recurringRangeEnd (some form.endsOn) today)).getD
        today)).filter (recurringDayMatch days)).length
  · rw [if_pos hF, if_pos hF]
  · rw [if_neg hF, if_neg hF]

/-- C2 (amended): saving a recurring assignment creates exactly one
active assignment (with cleared drop metadata) for the volunteer on
every existing instance of the chosen template whose weekday code is in
`byday`, and none on instances of other weekdays or other templates —
with no date-window restriction: the range query's `.or` filter is a
disjunction that every dated instance row satisfies (whenever
`starts_on` is at most the computed range-end string), and the
12-month fallback bound is `getDateKey(addMonths(today, 12))`, anchored
at `today`, not at `starts_on`. -/
theorem recurringSaveAssignsAllMatchingInstances
    (vol : VolunteerRow) (form : RecurringForm) (days : List String) (today : CalDate)
    (instances : List InstanceRow) (patterns0 : List RecurringRow)
    (pid now : String) (inst : InstanceRow)
    (htid : ¬(form.templateId = "")) (hstart : ¬(form.startsOn = ""))
    (hdays : ¬(days = []))
    (hdates : ∀ i ∈ instances, i.shift_date.isSome = true)
    (hids : (instances.map (fun i => i.id)).Nodup)
    (hrange : jsStrLe form.startsOn (recurringRangeEnd (some form.endsOn) today) = true)
    (hinst : inst ∈ instances) :
    ((inst.template_id = form.templateId ∧ recurringDayMatch days inst = true) →
        keyActiveClean (handleRecurringSave (some vol) form days today instances
          { patterns := patterns0, assignments := [] } pid now).1.assignments
          inst.id vol.id) ∧
      (¬(inst.template_id = form.templateId ∧ recurringDayMatch days inst = true) →
        countFor (handleRecurringSave (some vol) form days today instances
          { patterns := patterns0, assignments := [] } pid now).1.assignments
          inst.id vol.id = 0) := by
  rw [handleRecurringSave_assignments vol form days today instances
    { patterns := patterns0, assignments := [] } pid now htid hstart hdays]
  rw [recurringSelectInstances_all instances form.templateId form.startsOn
    (recurringRangeEnd (some form.endsOn) today) _
    (fun i hi => Option.isSome_iff_exists.1 (hdates i hi)) hrange]
  constructor
  · intro hmatch
    have hF : inst ∈ (instances.filter (fun i => i.template_id == form.templateId)).filter
        (recurringDayMatch days) := by
      refine List.mem_filter.2 ⟨List.mem_filter.2 ⟨hinst, ?_⟩, hmatch.2⟩
      simp [hmatch.1]
    rw [if_pos (List.length_pos.2 (List.ne_nil_of_mem hF))]
    apply bulkUpsert_establishes_keyActiveClean
    · intro p hp
      rcases List.mem_map.1 hp with ⟨i, _, rfl⟩
      exact ⟨rfl, rfl, rfl, rfl⟩
    · rw [List.map_map]
      exact List.mem_map.2 ⟨inst, hF, rfl⟩
    · simp [countFor]
  · intro hno
    by_cases hF : 0 < ((instances.filter (fun i => i.template_id == form.templateId)).filter
        (recurringDayMatch days)).length
    · rw [if_pos hF]
      have hfe := bulkUpsert_filter_absent
        (((instances.filter (fun i => i.template_id == form.templateId)).filter
          (recurringDayMatch days)).map (fun i =>
            { shift_instance_id := i.id, volunteer_id := vol.id, status := "active",
              assignment_role := if vol.role == "Lead" then "lead" else "regular",
              dropped_at := none, dropped_reason := none : AssignmentPayload }))
        [] now inst.id vol.id ?absent
      · rw [countFor_eq_of_filter_eq hfe]
        simp [countFor]
      · intro p hp hcon
        rcases List.mem_map.1 hp with ⟨i, hi, rfl⟩
        have hi2 := List.mem_filter.1 hi
        have hi3 := List.mem_filter.1 hi2.1
        have hieq : inst = i := by
          apply List.inj_on_of_nodup_map hids hinst hi3.1
          exact hcon.1
        apply hno
        rw [hieq]
        refine ⟨by simpa using hi3.2, hi2.2⟩
    · rw [if_neg hF]
      simp [countFor]

def c2Volunteer : VolunteerRow := { id := "vol-7", role := "Regular Volunteer" }

def c2Form : RecurringForm :=
  { templateId := "tmpl-1", startsOn := "2026-01-05", endsOn := "" }

/-- C2 counterexample: with `today = starts_on = 2026-01-05` (a Monday),
`byday = {MO}` and no `ends_on`, saving the pattern creates an active
assignment on the template's Monday instance dated 2025-12-29, which
lies strictly before `starts_on` — outside the claimed projection window
`[starts_on, starts_on + 12 months]`.  The range query's `.or` filter is
a disjunction, so the lower bound never applies (and the fallback upper
bound is computed from `today`, not from `starts_on`). -/
theorem recurringSaveWindow_counterexample :
    ((handleRecurringSave (some c2Volunteer) c2Form ["MO"] ⟨2026, 1, 5⟩
        [{ id := 1, template_id := "tmpl-1", shift_date := some "2025-12-29",
           starts_at := none }]
        { patterns := [], assignments := [] } "rec-1"
        "2026-01-05T12:00:00.000Z").1.assignments.any (fun r =>
          r.shift_instance_id == 1 && r.volunteer_id == "vol-7"
            && r.status == "active")) = true ∧
      jsStrLt "2025-12-29" c2Form.startsOn = true :=
  ⟨rfl, rfl⟩

def c2wMondayInstance : InstanceRow :=
  { id := 1, template_id := "tmpl-1", shift_date := some "2026-01-12", starts_at := none }

def c2wTuesdayInstance : InstanceRow :=
  { id := 2, template_id := "tmpl-1", shift_date := some "2026-01-13", starts_at := none }

def c2wInstances : List InstanceRow :=
  [c2wMondayInstance, c2wTuesdayInstance]

theorem recurringSaveAssignsAllMatchingInstances_witness :
    (c2wMondayInstance.template_id = c2Form.templateId ∧
        recurringDayMatch ["MO"] c2wMondayInstance = true →
      keyActiveClean (handleRecurringSave (some c2Volunteer) c2Form ["MO"] ⟨2026, 1, 5⟩
        c2wInstances { patterns := [], assignments := [] } "rec-2"
        "2026-01-05T12:00:00.000Z").1.assignments c2wMondayInstance.id c2Volunteer.id) ∧
      (¬(c2wMondayInstance.template_id = c2Form.templateId ∧
        recurringDayMatch ["MO"] c2wMondayInstance = true) →
      countFor (handleRecurringSave (some c2Volunteer) c2Form ["MO"] ⟨2026, 1, 5⟩
        c2wInstances { patterns := [], assignments := [] } "rec-2"
        "2026-01-05T12:00:00.000Z").1.assignments c2wMondayInstance.id c2Volunteer.id = 0) :=
  recurringSaveAssignsAllMatchingInstances c2Volunteer c2Form ["MO"] ⟨2026, 1, 5⟩
    c2wInstances [] "rec-2" "2026-01-05T12:00:00.000Z" c2wMondayInstance
    (by decide) (by decide) (by decide) (by decide) (by decide) (by decide) (by decide)

/-! ### C3: recurring-pattern deletion -/

def c3Pattern : RecurringRow :=
  { id := "rec-5", volunteer_id := "vol-9", template_id := "tmpl-1",
    starts_on := "2026-01-05", ends_on := none, byday := ["MO"] }

def c3TuesdayInstance : InstanceRow :=
  { id := 2, template_id := "tmpl-1", shift_date := some "2026-01-06", starts_at := none }

def c3TuesdayRow : AssignmentRow :=
  { id := "b1", shift_instance_id := 2, volunteer_id := "vol-9", status := "active",
    assignment_role := "regular", dropped_at := none, dropped_reason := none,
    created_at := "2026-01-02T09:00:00.000Z", notes := none }

/-- C3 counterexample: the pattern has `byday = {MO}`, yet deleting it
also removes the volunteer's assignment on the template's Tuesday
instance (2026-01-06, weekday outside the pattern's byday set, created
by other means) — the delete path never filters by weekday, refuting
"only the rows its bulk materialization created, rows on instances
whose weekday is outside byday are left untouched". -/
theorem recurringDeleteIgnoresByday_counterexample :
    (handleRecurringDelete (some { id := "vol-9", role := "Regular Volunteer" })
        [c3Pattern] "rec-5" ⟨2026, 1, 5⟩ [c3TuesdayInstance]
        { patterns := [c3Pattern], assignments := [c3TuesdayRow] }).1.assignments = [] ∧
      recurringDayMatch c3Pattern.byday c3TuesdayInstance = false :=
  ⟨rfl, rfl⟩

/-- C3 (amended): deleting a recurring pattern removes every assignment
row of that volunteer on any instance of the pattern's template returned
by the (effectively unrestricted) range query — regardless of the
instance's weekday and regardless of how the assignment was created —
and leaves every other assignment row (other volunteers, other
templates) untouched; afterwards exactly the pattern row itself is
removed from `recurring_assignments`. -/
theorem recurringDeleteRemovesAllTemplateAssignments
    (vol : VolunteerRow) (volunteerRecurring : List RecurringRow) (rid : String)
    (target : RecurringRow) (today : CalDate) (instances : List InstanceRow)
    (st : RecurringState)
    (hfind : volunteerRecurring.find? (fun item => item.id == rid) = some target)
    (hdates : ∀ i ∈ instances, i.shift_date.isSome = true)
    (hrange : jsStrLe target.starts_on (recurringRangeEnd target.ends_on today) = true) :
    (∀ r ∈ st.assignments,
        (r ∈ (handleRecurringDelete (some vol) volunteerRecurring rid today instances
            st).1.assignments ↔
          ¬(r.volunteer_id = vol.id ∧ ∃ i ∈ instances,
            i.id = r.shift_instance_id ∧ i.template_id = target.template_id))) ∧
      (∀ p ∈ st.patterns,
        (p ∈ (handleRecurringDelete (some vol) volunteerRecurring rid today instances
            st).1.patterns ↔ ¬(p.id = rid))) := by
  have hred : handleRecurringDelete (some vol) volunteerRecurring rid today instances st
      = ({ patterns := st.patterns.filter (fun p => !(p.id == rid)),
           assignments := st.assignments.filter (fun r =>
             !(r.volunteer_id == vol.id &&
               ((recurringSelectInstances instances target.template_id target.starts_on
                  (recurringRangeEnd target.ends_on today)
                  ((parseDateOnly (recurringRangeEnd target.ends_on today)).getD
                    today)).map (fun item => item.id)).contains r.shift_instance_id)) },
         none) := by
    simp [handleRecurringDelete, hfind]
  rw [hred]
  rw [recurringSelectInstances_all instances target.template_id target.starts_on
    (recurringRangeEnd target.ends_on today) _
    (fun i hi => Option.isSome_iff_exists.1 (hdates i hi)) hrange]
  have hcont : ∀ n : Nat,
      (((instances.filter (fun i => i.template_id == target.template_id)).map
        (fun item => item.id)).contains n = true
        ↔ ∃ i ∈ instances, i.id = n ∧ i.template_id = target.template_id) := by
    intro n
    rw [List.contains_eq_any_beq, List.any_eq_true]
    constructor
    · rintro ⟨m, hm, hbeq⟩
      rcases List.mem_map.1 hm with ⟨i, hif, rfl⟩
      have h2 := List.mem_filter.1 hif
      exact ⟨i, h2.1, (beq_iff_eq.1 hbeq).symm, beq_iff_eq.1 h2.2⟩
    · rintro ⟨i, hi, hid, hit⟩
      refine ⟨i.id, List.mem_map.2 ⟨i, List.mem_filter.2 ⟨hi, beq_iff_eq.2 hit⟩, rfl⟩, ?_⟩
      exact beq_iff_eq.2 hid.symm
  constructor
  · intro r hr
    rw [List.mem_filter]
    simp only [hr, true_and]
    rw [Bool.not_eq_true', Bool.and_eq_false_iff]
    constructor
    · rintro (h | h) ⟨hv, hex⟩
      · exact beq_eq_false_iff_ne.1 h hv
      · have hC := (hcont r.shift_instance_id).2 hex
        rw [h] at hC
        cases hC
    · intro hno
      by_cases hv : r.volunteer_id = vol.id
      · right
        rcases Bool.eq_false_or_eq_true (((instances.filter
            (fun i => i.template_id == target.template_id)).map
            (fun item => item.id)).contains r.shift_instance_id) with h | h
        · exact absurd ⟨hv, (hcont r.shift_instance_id).1 h⟩ hno
        · exact h
      · left
        exact beq_eq_false_iff_ne.2 hv
  · intro p hp
    rw [List.mem_filter]
    simp [hp]

theorem recurringDeleteRemovesAllTemplateAssignments_witness :
    (∀ r ∈ [c3TuesdayRow],
        (r ∈ (handleRecurringDelete (some { id := "vol-9", role := "Regular Volunteer" })
            [c3Pattern] "rec-5" ⟨2026, 1, 5⟩ [c3TuesdayInstance]
            { patterns := [c3Pattern], assignments := [c3TuesdayRow] }).1.assignments ↔
          ¬(r.volunteer_id = VolunteerRow.id { id := "vol-9", role := "Regular Volunteer" } ∧
            ∃ i ∈ [c3TuesdayInstance],
              i.id = r.shift_instance_id ∧ i.template_id = c3Pattern.template_id))) ∧
      (∀ p ∈ [c3Pattern],
        (p ∈ (handleRecurringDelete (some { id := "vol-9", role := "Regular Volunteer" })
            [c3Pattern] "rec-5" ⟨2026, 1, 5⟩ [c3TuesdayInstance]
            { patterns := [c3Pattern], assignments := [c3TuesdayRow] }).1.patterns ↔
          ¬(p.id = "rec-5"))) :=
  recurringDeleteRemovesAllTemplateAssignments
    { id := "vol-9", role := "Regular Volunteer" } [c3Pattern] "rec-5" c3Pattern
    ⟨2026, 1, 5⟩ [c3TuesdayInstance] { patterns := [c3Pattern], assignments := [c3TuesdayRow] }
    (by decide) (by decide) (by decide)

/-! ### C4: week materializer -/

/-- Invariant of the materializer fold: every collected row's key is in
the key set, row keys are distinct, and every key is either an initial
(existing-instance) key or the key of a collected row. -/
def matInv (keys0 : List String) (acc : List WeekInsertRow × List String) : Prop :=
  (∀ r ∈ acc.1, keyOfInsert r ∈ acc.2) ∧ (acc.1.map keyOfInsert).Nodup ∧
    (∀ k ∈ acc.2, k ∈ keys0 ∨ ∃ r ∈ acc.1, keyOfInsert r = k)

theorem not_mem_of_contains_eq_false {l : List String} {k : String}
    (h : ¬(l.contains k = true)) : k ∉ l :=
  fun hm => h (List.elem_iff.2 hm)

theorem weekMatStep_keys_mono (day : CalDate) (dayKey : String)
    (acc : List WeekInsertRow × List String) (t : ShiftTemplate) :
    acc.2 ⊆ (weekMatStep day dayKey acc t).2 := by
  unfold weekMatStep
  split
  · exact fun k hk => hk
  · split
    · exact fun k hk => hk
    · split
      · exact fun k hk => List.mem_append_left _ hk
      · exact fun k hk => hk

theorem weekMatStep_inv (keys0 : List String) (day : CalDate) (dayKey : String)
    (acc : List WeekInsertRow × List String) (t : ShiftTemplate)
    (h : matInv keys0 acc) : matInv keys0 (weekMatStep day dayKey acc t) := by
  unfold weekMatStep
  split
  · exact h
  · split
    · exact h
    · rename_i hc
      split
      · rename_i s e h1 h2
        have hkeynot : (t.id ++ "-" ++ dayKey) ∉ acc.2 := not_mem_of_contains_eq_false hc
        refine ⟨?_, ?_, ?_⟩
        · intro r hr
          rcases List.mem_append.1 hr with hr1 | hr2
          · exact List.mem_append_left _ (h.1 r hr1)
          · rcases List.mem_singleton.1 hr2 with rfl
            exact List.mem_append_right _ (List.mem_singleton.2 rfl)
        · rw [List.map_append, List.nodup_append]
          refine ⟨h.2.1, List.nodup_singleton _, ?_⟩
          intro k hk1 hk2
          have hk2e : k = t.id ++ "-" ++ dayKey := by
            simpa [keyOfInsert] using hk2
          rcases List.mem_map.1 hk1 with ⟨r, hr, hkr⟩
          apply hkeynot
          rw [← hk2e, ← hkr]
          exact h.1 r hr
        · intro k hk
          rcases List.mem_append.1 hk with hk1 | hk2
          · rcases h.2.2 k hk1 with h0 | ⟨r, hr, hkr⟩
            · exact Or.inl h0
            · exact Or.inr ⟨r, List.mem_append_left _ hr, hkr⟩
          · rcases List.mem_singleton.1 hk2 with rfl
            refine Or.inr ⟨WeekInsertRow.mk t.id dayKey s e, ?_, rfl⟩
            exact List.mem_append_right _ (List.mem_singleton.2 rfl)
      · exact h

theorem weekMatStep_key_in (day : CalDate) (dayKey : String)
    (acc : List WeekInsertRow × List String) (t : ShiftTemplate)
    (hactive : t.is_active = true)
    (hstart : (toIsoForDateAndTime day (some (resolveTemplateStartTime t))).isSome)
    (hend : (toIsoForDateAndTime day (some (resolveTemplateEndTime t))).isSome) :
    (t.id ++ "-" ++ dayKey) ∈ (weekMatStep day dayKey acc t).2 := by
  unfold weekMatStep
  split
  · rename_i hfalse
    rw [hactive] at hfalse
    cases hfalse
  · split
    · rename_i hmem
      exact List.elem_iff.1 hmem
    · split
      · exact List.mem_append_right _ (List.mem_singleton.2 rfl)
      · rename_i hnone
        exfalso
        cases h1 : toIsoForDateAndTime day (some (resolveTemplateStartTime t)) with
        | none =>
          rw [h1] at hstart
          cases hstart
        | some s =>
          cases h2 : toIsoForDateAndTime day (some (resolveTemplateEndTime t)) with
          | none =>
            rw [h2] at hend
            cases hend
          | some e => exact hnone s e h1 h2

theorem weekMatDay_keys_mono (templates : List ShiftTemplate) (day : CalDate)
    (acc : List WeekInsertRow × List String) (k : String) (hk : k ∈ acc.2) :
    k ∈ (weekMatDay templates day acc).2 := by
  unfold weekMatDay
  exact foldl_preserve
    (fun b t _ hb => weekMatStep_keys_mono day (getDateKey day) b t hb) hk

theorem weekMatDay_inv (keys0 : List String) (templates : List ShiftTemplate)
    (day : CalDate) (acc : List WeekInsertRow × List String)
    (h : matInv keys0 acc) : matInv keys0 (weekMatDay templates day acc) := by
  unfold weekMatDay
  exact foldl_preserve
    (fun b t _ hb => weekMatStep_inv keys0 day (getDateKey day) b t hb) h

theorem weekMatDay_key_in (templates : List ShiftTemplate) (day : CalDate)
    (acc : List WeekInsertRow × List String) (t : ShiftTemplate)
    (ht : t ∈ templates) (hactive : t.is_active = true)
    (hstart : (toIsoForDateAndTime day (some (resolveTemplateStartTime t))).isSome)
    (hend : (toIsoForDateAndTime day (some (resolveTemplateEndTime t))).isSome) :
    (t.id ++ "-" ++ getDateKey day) ∈ (weekMatDay templates day acc).2 := by
  unfold weekMatDay
  exact foldl_reach
    (fun b u _ hb => weekMatStep_keys_mono day (getDateKey day) b u hb)
    (fun b => weekMatStep_key_in day (getDateKey day) b t hactive hstart hend) ht acc

theorem computeWeekRows_inv (keys0 : List String) (templates : List ShiftTemplate)
    (weekStart : CalDate) :
    matInv keys0 (computeWeekRowsToInsert templates weekStart keys0) := by
  unfold computeWeekRowsToInsert
  apply foldl_preserve
    (fun b i _ hb => weekMatDay_inv keys0 templates (addDays weekStart i) b hb)
  refine ⟨?_, List.nodup_nil, ?_⟩
  · intro r hr
    cases hr
  · intro k hk
    exact Or.inl hk

theorem computeWeekRows_key_in (keys0 : List String) (templates : List ShiftTemplate)
    (weekStart : CalDate) (t : ShiftTemplate) (i : Nat)
    (ht : t ∈ templates) (hactive : t.is_active = true) (hi : i < 7)
    (hstart : (toIsoForDateAndTime (addDays weekStart i)
      (some (resolveTemplateStartTime t))).isSome)
    (hend : (toIsoForDateAndTime (addDays weekStart i)
      (some (resolveTemplateEndTime t))).isSome) :
    (t.id ++ "-" ++ getDateKey (addDays weekStart i))
      ∈ (computeWeekRowsToInsert templates weekStart keys0).2 := by
  unfold computeWeekRowsToInsert
  exact foldl_reach
    (fun b j _ hb => weekMatDay_keys_mono templates (addDays weekStart j) b _ hb)
    (fun b => weekMatDay_key_in templates (addDays weekStart i) b t ht hactive hstart hend)
    (List.mem_range.2 hi) ([], keys0)

/-- Provenance of a collected insert row: it comes from some active
template of the fetched list and some day of the visible week, with
start/end timestamps derived from that template's resolved time-of-day
fields anchored to that day. -/
def rowFromTemplateDay (templates : List ShiftTemplate) (weekStart : CalDate)
    (r : WeekInsertRow) : Prop :=
  ∃ t ∈ templates, ∃ j, j < 7 ∧ t.is_active = true ∧ r.template_id = t.id ∧
    r.shift_date = getDateKey (addDays weekStart j) ∧
    toIsoForDateAndTime (addDays weekStart j)
      (some (resolveTemplateStartTime t)) = some r.starts_at ∧
    toIsoForDateAndTime (addDays weekStart j)
      (some (resolveTemplateEndTime t)) = some r.ends_at

theorem weekMatDay_provenance (templates : List ShiftTemplate) (weekStart : CalDate)
    (j : Nat) (hj : j < 7) (acc : List WeekInsertRow × List String)
    (h : ∀ r ∈ acc.1, rowFromTemplateDay templates weekStart r) :
    ∀ r ∈ (weekMatDay templates (addDays weekStart j) acc).1,
      rowFromTemplateDay templates weekStart r := by
  unfold weekMatDay
  refine foldl_preserve
    (P := fun (b : List WeekInsertRow × List String) =>
      ∀ r ∈ b.1, rowFromTemplateDay templates weekStart r) ?step h
  intro b t ht hb
  unfold weekMatStep
  split
  · exact hb
  · rename_i hnf
    have hactive : t.is_active = true := by
      cases hb2 : t.is_active
      · exact absurd hb2 hnf
      · rfl
    split
    · exact hb
    · split
      · rename_i s e h1 h2
        intro r hr
        rcases List.mem_append.1 hr with hr1 | hr2
        · exact hb r hr1
        · rcases List.mem_singleton.1 hr2 with rfl
          exact ⟨t, ht, j, hj, hactive, rfl, rfl, h1, h2⟩
      · exact hb

theorem computeWeekRows_provenance (templates : List ShiftTemplate)
    (weekStart : CalDate) (keys0 : List String) :
    ∀ r ∈ (computeWeekRowsToInsert templates weekStart keys0).1,
      rowFromTemplateDay templates weekStart r := by
  unfold computeWeekRowsToInsert
  refine foldl_preserve
    (P := fun (b : List WeekInsertRow × List String) =>
      ∀ r ∈ b.1, rowFromTemplateDay templates weekStart r) ?step ?init
  · intro b i hi hb
    exact weekMatDay_provenance templates weekStart i (List.mem_range.1 hi) b hb
  · intro r hr
    cases hr

def c4Template : ShiftTemplate :=
  { id := "tmpl-1", title := "Cat care", start_time := "09:00", end_time := "11:00",
    rrule := some "FREQ=WEEKLY;BYDAY=MO", is_active := true }

/-- C4 counterexample: the template's recurrence rule is weekly on
Mondays only, so the Recurrence Engine rejects Tuesday 2026-01-06 — yet
the bulk materializer still collects an insert row for that (template,
date) combination: `shouldIncludeDateForTemplate` is never consulted by
the week-view insert loop. -/
theorem weekMaterializerIgnoresRecurrence_counterexample :
    shouldIncludeDateForTemplate ⟨2026, 1, 6⟩ c4Template = false ∧
      ((computeWeekRowsToInsert [c4Template] ⟨2026, 1, 5⟩ []).1.any (fun r =>
        r.template_id == "tmpl-1" && r.shift_date == "2026-01-06")) = true :=
  ⟨rfl, rfl⟩

/-- C4 (amended): on week-view load, for every (active template, date)
combination of the visible week with no existing persisted instance key
and derivable start/end times, the bulk materializer collects exactly
one insert row, with no recurrence condition — the Recurrence Engine's
inclusion decision is not consulted, and combinations it rejects are
inserted all the same; every collected row's timestamps are derived from
its template's time-of-day fields anchored to its date. -/
theorem weekMaterializerInsertsActiveTemplatesUnfiltered
    (templates : List ShiftTemplate) (weekStart : CalDate) (existingKeys : List String)
    (t : ShiftTemplate) (i : Nat)
    (ht : t ∈ templates) (hactive : t.is_active = true) (hi : i < 7)
    (hstart : (toIsoForDateAndTime (addDays weekStart i)
      (some (resolveTemplateStartTime t))).isSome)
    (hend : (toIsoForDateAndTime (addDays weekStart i)
      (some (resolveTemplateEndTime t))).isSome)
    (hkey : (t.id ++ "-" ++ getDateKey (addDays weekStart i)) ∉ existingKeys) :
    ((computeWeekRowsToInsert templates weekStart existingKeys).1.filter
        (fun r => keyOfInsert r == t.id ++ "-" ++ getDateKey (addDays weekStart i))).length
        = 1 ∧
      ∀ r ∈ (computeWeekRowsToInsert templates weekStart existingKeys).1,
        rowFromTemplateDay templates weekStart r := by
  have hinv := computeWeekRows_inv existingKeys templates weekStart
  have hin := computeWeekRows_key_in existingKeys templates weekStart t i ht hactive hi
    hstart hend
  constructor
  · rcases hinv.2.2 _ hin with h0 | ⟨r, hr, hkr⟩
    · exact absurd h0 hkey
    · apply Nat.le_antisymm
      · exact length_filter_le_one_of_nodup_map hinv.2.1 _
      · exact length_filter_pos_of_mem hr (beq_iff_eq.2 hkr)
  · exact computeWeekRows_provenance templates weekStart existingKeys

theorem weekMaterializerInsertsActiveTemplatesUnfiltered_witness :
    ((computeWeekRowsToInsert [c4Template] ⟨2026, 1, 5⟩ []).1.filter
        (fun r => keyOfInsert r == c4Template.id ++ "-"
          ++ getDateKey (addDays ⟨2026, 1, 5⟩ 1))).length = 1 ∧
      ∀ r ∈ (computeWeekRowsToInsert [c4Template] ⟨2026, 1, 5⟩ []).1,
        rowFromTemplateDay [c4Template] ⟨2026, 1, 5⟩ r :=
  weekMaterializerInsertsActiveTemplatesUnfiltered [c4Template] ⟨2026, 1, 5⟩ []
    c4Template 1 (by decide) (by decide) (by decide) (by decide) (by decide) (by decide)
